import Mathlib

/-!
Shallow embedding of the seat reservation / booking core of the
cinema-ticket-selling-api repository.

Sources embedded:
* `app/services/seat_reservation.py` — `SeatReservationService`
  (`cleanup_expired_reservations`, `reserve_seats`, `extend_reservation`,
  `cancel_reservations`).
* `app/services/cinema.py` — `book_tickets_from_reservation`, `book_tickets`,
  `cancel_ticket`.
* `app/routers/seat_reservation.py` — `toggle_seat_reservation`.
* `app/models/seat_reservation.py`, `app/models/screening.py` — record shapes.

Modelling conventions:
* `datetime` values are natural numbers; one unit is one minute, so the
  5-minute hold duration of `RESERVATION_DURATION_MINUTES` is the literal 5
  and `timedelta(minutes=m)` is `+ m`.  Within a single service call the
  several `datetime.utcnow()` reads are modelled as one instant `now`.
* A SQL session is a `Store` value.  `session.commit()` of a successful
  operation is the returned store; a raised `HTTPException` (every failure
  path either rolls the session back or leaves it uncommitted, and the
  FastAPI session dependency in `app/database.py` never commits) is an
  `Except.error`, paired with the unchanged store by the `run` wrappers.
* Statuses are the string literals used by the Python code.
* `float` prices are modelled as `Nat`.
-/

namespace Cinema

/-- `app/models/cinema.py` Seat: room membership is all the core reads. -/
structure Seat where
  id : Nat
  roomId : Nat
  deriving Repr, DecidableEq

/-- `app/models/screening.py` Screening. -/
structure Screening where
  id : Nat
  movieId : Nat
  roomId : Nat
  screeningTime : Nat
  price : Nat
  deriving Repr, DecidableEq

/-- `app/models/movie.py` Movie, reduced to the released/coming-soon state
read by `reserve_seats`. -/
structure Movie where
  id : Nat
  state : String
  deriving Repr, DecidableEq

/-- `app/models/seat_reservation.py` SeatReservation. -/
structure Reservation where
  id : Nat
  screeningId : Nat
  seatId : Nat
  userId : Nat
  reservedAt : Nat
  expiresAt : Nat
  status : String
  deriving Repr, DecidableEq

/-- `app/models/ticket.py` Ticket (fields used by the services). -/
structure Ticket where
  id : Nat
  userId : Nat
  screeningId : Nat
  seatId : Nat
  price : Nat
  status : String
  confirmedAt : Option Nat
  paymentId : Option String
  deriving Repr, DecidableEq

/-- The durable relational store: catalog tables (read-only for this core)
plus the reservation and ticket ledgers.  `nextResId` / `nextTicketId`
model the DB autoincrement columns. -/
structure Store where
  seats : List Seat
  screenings : List Screening
  movies : List Movie
  reservations : List Reservation
  tickets : List Ticket
  nextResId : Nat
  nextTicketId : Nat
  deriving Repr, DecidableEq

/-- Error kinds of the raised `HTTPException`s. -/
inductive Err where
  | screeningNotFound : Err
  | comingSoon : Err
  | pastScreening : Err
  | seatNotFound : Nat → Err
  | seatWrongRoom : Nat → Err
  | lockFailed : Err
  | alreadyBooked : List Nat → Err
  | reservedByOthers : List Nat → Err
  | cannotExtend : Nat → Err
  | extendOnBooked : List Nat → Err
  | noValidReservations : Err
  | ticketNotFound : Err
  | forbiddenTicket : Err
  | ticketAlreadyCancelled : Err
  deriving Repr, DecidableEq

/-- `SeatReservationService.RESERVATION_DURATION_MINUTES = 5`. -/
def RESERVATION_DURATION_MINUTES : Nat := 5

/-- Availability-change notification payload
(`{"seat_id": ..., "status": "available", "previously_reserved_by": ...}`). -/
structure SeatUpdate where
  seatId : Nat
  status : String
  previouslyReservedBy : Nat
  deriving Repr, DecidableEq

/-- A reservation row matched by the cleanup sweep:
`status == "active" AND expires_at < current_time`. -/
def isExpiredActive (now : Nat) (r : Reservation) : Bool :=
  r.status == "active" && r.expiresAt < now

/-- `reservation.status = "expired"` applied to the rows the sweep matched. -/
def expireRow (now : Nat) (r : Reservation) : Reservation :=
  if isExpiredActive now r then { r with status := "expired" } else r

/-- `seat_updates[screening_id].append({...})`: one step of the sweep's
grouping loop; the dict keyed by screening id in insertion order is an
association list, new keys appended at the end. -/
def pushUpdate (acc : List (Nat × List SeatUpdate)) (r : Reservation) :
    List (Nat × List SeatUpdate) :=
  let upd : SeatUpdate := ⟨r.seatId, "available", r.userId⟩
  if acc.any (fun p => p.1 == r.screeningId) then
    acc.map (fun p => if p.1 == r.screeningId then (p.1, p.2 ++ [upd]) else p)
  else acc ++ [(r.screeningId, [upd])]

/-- The broadcast map built by `cleanup_expired_reservations`. -/
def cleanupUpdates (now : Nat) (s : Store) : List (Nat × List SeatUpdate) :=
  (s.reservations.filter (isExpiredActive now)).foldl pushUpdate []

/-- The store after the cleanup sweep flips each matched row to
`"expired"`. -/
def expireStore (now : Nat) (s : Store) : Store :=
  { s with reservations := s.reservations.map (expireRow now) }

/-- `SeatReservationService.cleanup_expired_reservations`:
returns the updated store, the count of newly expired rows, and the
broadcast map (the Python returns `{}` when the count is zero, which
coincides with the empty grouping). -/
def cleanupExpired (now : Nat) (s : Store) :
    Store × Nat × List (Nat × List SeatUpdate) :=
  (expireStore now s,
   (s.reservations.filter (isExpiredActive now)).length,
   cleanupUpdates now s)

/-- The `Ticket.status.in_(["confirmed", "booked"])` conflict filter of
`reserve_seats` (line 270) — note the Python checks `"booked"`, not
`"pending"`. -/
def bookedConflict (sc : Nat) (L : List Nat) (tk : Ticket) : Bool :=
  tk.screeningId == sc && L.contains tk.seatId &&
    (tk.status == "confirmed" || tk.status == "booked")

/-- Active, unexpired reservation held by a different user (conflict filter
of `reserve_seats`, line 283). -/
def otherHold (now u sc : Nat) (L : List Nat) (r : Reservation) : Bool :=
  r.screeningId == sc && L.contains r.seatId && r.status == "active" &&
    decide (now < r.expiresAt) && r.userId != u

/-- An active reservation of the same user on one of the requested seats
(cancelled and superseded by `reserve_seats`, line 303: no expiry filter). -/
def ownActive (u sc : Nat) (L : List Nat) (r : Reservation) : Bool :=
  r.screeningId == sc && L.contains r.seatId && r.userId == u &&
    r.status == "active"

/-- `reservation.status = "cancelled"` for the caller's superseded rows. -/
def supersedeRow (u sc : Nat) (L : List Nat) (r : Reservation) : Reservation :=
  if ownActive u sc L r then { r with status := "cancelled" } else r

/-- The fresh reservation rows created by `reserve_seats` (line 323),
one per requested seat, autoincrement ids from `base`. -/
def mkReservations (now u sc : Nat) : List Nat → Nat → List Reservation
  | [], _ => []
  | x :: xs, base =>
    ⟨base, sc, x, u, now, now + RESERVATION_DURATION_MINUTES, "active"⟩ ::
      mkReservations now u sc xs (base + 1)

/-- The per-seat existence / room-membership loop of `reserve_seats`
(lines 233–248). -/
def validateSeats (seats : List Seat) (roomId : Nat) :
    List Nat → Except Err Unit
  | [] => .ok ()
  | x :: xs =>
    match seats.find? (fun st => st.id == x) with
    | none => .error (.seatNotFound x)
    | some st =>
      if st.roomId != roomId then .error (.seatWrongRoom x)
      else validateSeats seats roomId xs

/-- `select(Seat).where(Seat.id.in_(seat_ids)).with_for_update()`:
the seat rows whose id occurs in the request. -/
def lockedSeats (seats : List Seat) (L : List Nat) : List Seat :=
  seats.filter (fun st => L.contains st.id)

/-- `SeatReservationService.reserve_seats`.  Result on success: the
committed store and the created reservations; every raise is an
`Except.error` (the session is rolled back / never committed). -/
def reserveSeatsE (now u sc : Nat) (L : List Nat) (s : Store) :
    Except Err (Store × List Reservation) :=
  -- cleanup_expired_reservations runs first and its writes are committed
  -- together with the reservation insert; `expireStore now s` below is that
  -- cleaned session state
  match (expireStore now s).screenings.find? (fun x => x.id == sc) with
  | none => .error .screeningNotFound
  | some scr =>
    if ((expireStore now s).movies.find? (fun m => m.id == scr.movieId)).any
        (fun m => m.state == "coming_soon") then .error .comingSoon
    else if scr.screeningTime < now then .error .pastScreening
    else match validateSeats (expireStore now s).seats scr.roomId L with
    | .error e => .error e
    | .ok _ =>
      if (lockedSeats (expireStore now s).seats L).length = L.length then
        if (expireStore now s).tickets.filter (bookedConflict sc L) = [] then
          if (expireStore now s).reservations.filter (otherHold now u sc L)
              = [] then
            .ok ({ expireStore now s with
                    reservations :=
                      ((expireStore now s).reservations.map
                        (supersedeRow u sc L)) ++
                        mkReservations now u sc L s.nextResId,
                    nextResId := s.nextResId + L.length },
                 mkReservations now u sc L s.nextResId)
          else
            .error (.reservedByOthers
              (((expireStore now s).reservations.filter
                (otherHold now u sc L)).map (fun r => r.seatId)))
        else
          .error (.alreadyBooked
            (((expireStore now s).tickets.filter
              (bookedConflict sc L)).map (fun tk => tk.seatId)))
      else .error .lockFailed

/-- `reserve_seats` as state transformer: an error leaves the store as it
was (rollback / uncommitted session). -/
def reserveSeats (now u sc : Nat) (L : List Nat) (s : Store) :
    Store × Except Err (List Reservation) :=
  match reserveSeatsE now u sc L s with
  | .ok (s', rs) => (s', .ok rs)
  | .error e => (s, .error e)

/-- Rows matched by the strict validation filter of `extend_reservation`
(line 424) and of `book_tickets_from_reservation` (line 154): owned,
active, unexpired. -/
def validHold (now u sc : Nat) (L : List Nat) (r : Reservation) : Bool :=
  r.screeningId == sc && L.contains r.seatId && r.userId == u &&
    r.status == "active" && decide (now < r.expiresAt)

/-- `reservation.expires_at += extension` for the validated rows. -/
def extendRow (now u sc : Nat) (L : List Nat) (additionalMinutes : Nat)
    (r : Reservation) : Reservation :=
  if validHold now u sc L r then
    { r with expiresAt := r.expiresAt + additionalMinutes }
  else r

/-- `SeatReservationService.extend_reservation`. -/
def extendReservationE (now u sc : Nat) (L : List Nat)
    (additionalMinutes : Nat) (s : Store) :
    Except Err (Store × List Reservation) :=
  if (lockedSeats s.seats L).length = L.length then
    if (s.reservations.filter (validHold now u sc L)).length = L.length then
      -- dead double-check in the source: validated rows are "active",
      -- so none is "booked"
      if (s.reservations.filter (validHold now u sc L)).filter
          (fun r => r.status == "booked") = [] then
        .ok ({ s with reservations :=
                s.reservations.map (extendRow now u sc L additionalMinutes) },
             (s.reservations.filter (validHold now u sc L)).map
               (extendRow now u sc L additionalMinutes))
      else
        .error (.extendOnBooked
          (((s.reservations.filter (validHold now u sc L)).filter
            (fun r => r.status == "booked")).map (fun r => r.seatId)))
    else
      .error (.cannotExtend
        (L.length - (s.reservations.filter (validHold now u sc L)).length))
  else .error .lockFailed

/-- `extend_reservation` as state transformer. -/
def extendReservation (now u sc : Nat) (L : List Nat)
    (additionalMinutes : Nat) (s : Store) :
    Store × Except Err (List Reservation) :=
  match extendReservationE now u sc L additionalMinutes s with
  | .ok (s', rs) => (s', .ok rs)
  | .error e => (s, .error e)

/-- The Python truthiness test `if seat_ids:` of `cancel_reservations`
(line 501): the seat filter applies only for a non-empty list. -/
def seatSelector (seatIds : Option (List Nat)) (x : Nat) : Bool :=
  match seatIds with
  | none => true
  | some l => if l.isEmpty then true else l.contains x

/-- Rows matched by `cancel_reservations`: the caller's active
reservations of the screening, optionally restricted to given seats
(no expiry filter). -/
def cancelMatch (u sc : Nat) (seatIds : Option (List Nat))
    (r : Reservation) : Bool :=
  r.screeningId == sc && r.userId == u && r.status == "active" &&
    seatSelector seatIds r.seatId

/-- `reservation.status = "cancelled"` for the matched rows. -/
def cancelRow (u sc : Nat) (seatIds : Option (List Nat))
    (r : Reservation) : Reservation :=
  if cancelMatch u sc seatIds r then { r with status := "cancelled" } else r

/-- `SeatReservationService.cancel_reservations`: always succeeds,
returns the count of rows flipped to `"cancelled"`. -/
def cancelReservations (u sc : Nat) (seatIds : Option (List Nat))
    (s : Store) : Store × Nat :=
  ({ s with reservations := s.reservations.map (cancelRow u sc seatIds) },
   (s.reservations.filter (cancelMatch u sc seatIds)).length)

/-- The idempotency probe of `book_tickets_from_reservation` (line 128):
already-confirmed tickets of this user for the requested seats. -/
def idemTicket (u sc : Nat) (L : List Nat) (tk : Ticket) : Bool :=
  tk.screeningId == sc && L.contains tk.seatId && tk.userId == u &&
    tk.status == "confirmed"

/-- The tickets created by `book_tickets_from_reservation` (line 186),
one per validated reservation, autoincrement ids from `base`. -/
def mkTickets (now u sc price : Nat) (pid : Option String) :
    List Reservation → Nat → List Ticket
  | [], _ => []
  | r :: rest, base =>
    ⟨base, u, sc, r.seatId, price, "confirmed", some now, pid⟩ ::
      mkTickets now u sc price pid rest (base + 1)

/-- `reservation.status = "booked"` for the validated rows the conversion
consumed. -/
def bookRow (now u sc : Nat) (L : List Nat) (r : Reservation) : Reservation :=
  if validHold now u sc L r then { r with status := "booked" } else r

/-- `book_tickets_from_reservation` in `app/services/cinema.py`. -/
def bookFromReservationE (now u sc : Nat) (L : List Nat)
    (pid : Option String) (s : Store) : Except Err (Store × List Ticket) :=
  -- idempotency probe: `if payment_id:` and all requested seats already
  -- carry a confirmed ticket of this user, return them unchanged
  if pid.isSome = true ∧ s.tickets.filter (idemTicket u sc L) ≠ [] ∧
      (s.tickets.filter (idemTicket u sc L)).length = L.length then
    .ok (s, s.tickets.filter (idemTicket u sc L))
  else if (lockedSeats s.seats L).length = L.length then
    if (s.reservations.filter (validHold now u sc L)).length = L.length then
      match s.screenings.find? (fun x => x.id == sc) with
      | none => .error .screeningNotFound
      | some scr =>
        .ok ({ s with
                tickets := s.tickets ++
                  mkTickets now u sc scr.price pid
                    (s.reservations.filter (validHold now u sc L))
                    s.nextTicketId,
                reservations := s.reservations.map (bookRow now u sc L),
                nextTicketId := s.nextTicketId +
                  (s.reservations.filter (validHold now u sc L)).length },
             mkTickets now u sc scr.price pid
               (s.reservations.filter (validHold now u sc L)) s.nextTicketId)
    else .error .noValidReservations
  else .error .lockFailed

/-- `book_tickets_from_reservation` as state transformer. -/
def bookFromReservation (now u sc : Nat) (L : List Nat)
    (pid : Option String) (s : Store) : Store × Except Err (List Ticket) :=
  match bookFromReservationE now u sc L pid s with
  | .ok (s', ts) => (s', .ok ts)
  | .error e => (s, .error e)

/-- `book_tickets` (`BookDirect`): reserve, then convert, with the
mandatory compensating `cancel_reservations` when conversion fails
after the holds were taken.  The conversion step reads the clock again
(`now2`, with `now ≤ now2`), so a request stalled past the hold expiry
fails the re-validation and must compensate. -/
def bookTickets (now now2 u sc : Nat) (L : List Nat) (s : Store) :
    Store × Except Err (List Ticket) :=
  match reserveSeatsE now u sc L s with
  | .error e => (s, .error e)
  | .ok (s1, _) =>
    match bookFromReservationE now2 u sc L none s1 with
    | .ok (s2, ts) => (s2, .ok ts)
    | .error e => ((cancelReservations u sc (some L) s1).1, .error e)

/-- `ticket.status = "cancelled"` for the ticket being cancelled. -/
def cancelTicketRow (tid : Nat) (t : Ticket) : Ticket :=
  if t.id == tid then { t with status := "cancelled" } else t

/-- `cancel_ticket` in `app/services/cinema.py`. -/
def cancelTicketE (tid u : Nat) (s : Store) : Except Err (Store × Ticket) :=
  match s.tickets.find? (fun tk => tk.id == tid) with
  | none => .error .ticketNotFound
  | some tk =>
    if tk.userId = u then
      if tk.status = "cancelled" then .error .ticketAlreadyCancelled
      else
        .ok ({ s with tickets := s.tickets.map (cancelTicketRow tid) },
             { tk with status := "cancelled" })
    else .error .forbiddenTicket

/-- `cancel_ticket` as state transformer. -/
def cancelTicket (tid u : Nat) (s : Store) : Store × Except Err Ticket :=
  match cancelTicketE tid u s with
  | .ok (s', tk) => (s', .ok tk)
  | .error e => (s, .error e)

/-- `toggle_seat_reservation` in `app/routers/seat_reservation.py`:
cancel the caller's live holds on the seats if any exist, otherwise
reserve them. -/
def toggleSeat (now u sc : Nat) (L : List Nat) (s : Store) :
    Store × Except Err Unit :=
  if s.reservations.filter (validHold now u sc L) ≠ [] then
    ((cancelReservations u sc (some L) s).1, .ok ())
  else
    ((reserveSeats now u sc L s).1, (reserveSeats now u sc L s).2.map
      (fun _ => ()))

/-! ## The mutual-exclusion invariant and reachable states -/

/-- Reservation row holding the slot `(sc, x)`: status `active` with
`expires_at` in the future of instant `t`. -/
def slotLive (sc x t : Nat) (r : Reservation) : Bool :=
  r.screeningId == sc && r.seatId == x && r.status == "active" &&
    decide (t < r.expiresAt)

/-- Core mutual-exclusion guarantee: at instant `t`, each (screening, seat)
pair has at most one reservation in status `active` with unexpired hold. -/
def SlotMutex (s : Store) (t : Nat) : Prop :=
  ∀ sc x, s.reservations.countP (slotLive sc x t) ≤ 1

/-- No `active`, unexpired reservation coexists with a `confirmed` or
`pending` ticket for the same (screening, seat) slot. -/
def NoCoexist (s : Store) (t : Nat) : Prop :=
  ∀ r ∈ s.reservations, r.status = "active" → t < r.expiresAt →
    ∀ tk ∈ s.tickets, tk.screeningId = r.screeningId →
      tk.seatId = r.seatId →
        tk.status ≠ "confirmed" ∧ tk.status ≠ "pending"

/-- Ticket statuses producible by the modelled operations:
`book_tickets_from_reservation` writes `"confirmed"`, `cancel_ticket`
writes `"cancelled"`. -/
def TicketsTame (s : Store) : Prop :=
  ∀ tk ∈ s.tickets, tk.status = "confirmed" ∨ tk.status = "cancelled"

/-- The seat catalog is a relational table: primary-key ids are unique. -/
def SeatsOk (s : Store) : Prop := (s.seats.map (fun st => st.id)).Nodup

/-- The inductive invariant carried through every operation. -/
def Inv (s : Store) (t : Nat) : Prop :=
  SlotMutex s t ∧ NoCoexist s t ∧ TicketsTame s ∧ SeatsOk s

/-- States reachable from an empty ledger by any sequence of the public
operations, executed at non-decreasing instants.  The second index is the
instant of the latest operation. -/
inductive Reachable : Store → Nat → Prop where
  | init (seats : List Seat) (screenings : List Screening)
      (movies : List Movie) (t : Nat)
      (hseats : (seats.map (fun st => st.id)).Nodup) :
      Reachable ⟨seats, screenings, movies, [], [], 0, 0⟩ t
  | tick {s t} (t' : Nat) : Reachable s t → t ≤ t' → Reachable s t'
  | reserve {s t} (t' u sc : Nat) (L : List Nat) : Reachable s t → t ≤ t' →
      Reachable (reserveSeats t' u sc L s).1 t'
  | toggle {s t} (t' u sc : Nat) (L : List Nat) : Reachable s t → t ≤ t' →
      Reachable (toggleSeat t' u sc L s).1 t'
  | extend {s t} (t' u sc : Nat) (L : List Nat) (k : Nat) :
      Reachable s t → t ≤ t' →
      Reachable (extendReservation t' u sc L k s).1 t'
  | cancelRes {s t} (t' u sc : Nat) (seatIds : Option (List Nat)) :
      Reachable s t → t ≤ t' →
      Reachable (cancelReservations u sc seatIds s).1 t'
  | cleanup {s t} (t' : Nat) : Reachable s t → t ≤ t' →
      Reachable (cleanupExpired t' s).1 t'
  | bookFrom {s t} (t' u sc : Nat) (L : List Nat) (pid : Option String) :
      Reachable s t → t ≤ t' →
      Reachable (bookFromReservation t' u sc L pid s).1 t'
  | bookDirect {s t} (t1 t2 u sc : Nat) (L : List Nat) : Reachable s t →
      t ≤ t1 → t1 ≤ t2 → Reachable (bookTickets t1 t2 u sc L s).1 t2
  | cancelTk {s t} (t' tid u : Nat) : Reachable s t → t ≤ t' →
      Reachable (cancelTicket tid u s).1 t'

/-- Decidable per-request form of the mutual-exclusion guarantee used as a
precondition: each requested seat carries at most one owned live hold row
(every `Reachable` store satisfies it, by `SlotMutex`). -/
def HoldUnique (now u sc : Nat) (L : List Nat) (s : Store) : Prop :=
  ∀ x ∈ L, s.reservations.countP
    (fun r => validHold now u sc L r && r.seatId == x) ≤ 1

instance holdUniqueDecidable (now u sc : Nat) (L : List Nat) (s : Store) :
    Decidable (HoldUnique now u sc L s) :=
  List.decidableBAll _ L

instance seatsOkDecidable (s : Store) : Decidable (SeatsOk s) :=
  inferInstanceAs (Decidable (List.Nodup _))

/-- Membership in the grouped availability-notification map. -/
def updContains (m : List (Nat × List SeatUpdate)) (scid : Nat)
    (upd : SeatUpdate) : Prop :=
  ∃ us, (scid, us) ∈ m ∧ upd ∈ us

/-! ## Concrete fixtures used to instantiate the theorems -/

def demoSeats : List Seat := [⟨1, 1⟩, ⟨2, 1⟩, ⟨3, 1⟩]

def demoScreenings : List Screening := [⟨1, 1, 1, 100, 12⟩]

def demoMovies : List Movie := [⟨1, "released"⟩]

/-- Empty ledgers over a three-seat room with one future screening. -/
def demoStore : Store :=
  ⟨demoSeats, demoScreenings, demoMovies, [], [], 0, 0⟩

/-- Seat 3 is held (active, unexpired) by user 9. -/
def heldStore : Store :=
  { demoStore with
      reservations := [⟨0, 1, 3, 9, 0, 50, "active"⟩], nextResId := 1 }

/-- User 7 holds seats 1 and 2 (active until instant 50). -/
def holdsStore : Store :=
  { demoStore with
      reservations := [⟨0, 1, 1, 7, 0, 50, "active"⟩,
                       ⟨1, 1, 2, 7, 0, 50, "active"⟩],
      nextResId := 2 }

/-- The tickets the first successful conversion of `holdsStore` creates. -/
def firstTickets : List Ticket :=
  [⟨0, 7, 1, 1, 12, "confirmed", some 10, some "PAY-1"⟩,
   ⟨1, 7, 1, 2, 12, "confirmed", some 10, some "PAY-1"⟩]

/-- `holdsStore` after booking seats 1 and 2 with key "PAY-1" at instant
10. -/
def bookedOnce : Store :=
  { holdsStore with
      reservations := [⟨0, 1, 1, 7, 0, 50, "booked"⟩,
                       ⟨1, 1, 2, 7, 0, 50, "booked"⟩],
      tickets := firstTickets,
      nextTicketId := 2 }

/-- A pending ticket of user 5 sits on seat 1 of screening 1. -/
def pendingStore : Store :=
  { demoStore with
      tickets := [⟨0, 5, 1, 1, 12, "pending", none, none⟩],
      nextTicketId := 1 }

/-- One active hold whose expiry is exactly the sweep instant 5. -/
def boundaryStore : Store :=
  { demoStore with
      reservations := [⟨0, 1, 1, 7, 0, 5, "active"⟩], nextResId := 1 }

/-- `demoStore` right after user 7 reserved seats 1 and 2 at instant 10
(holds expire at 15). -/
def reservedMid : Store :=
  { demoStore with
      reservations := [⟨0, 1, 1, 7, 10, 15, "active"⟩,
                       ⟨1, 1, 2, 7, 10, 15, "active"⟩],
      nextResId := 2 }

/-- The reservation rows created by that reserve step. -/
def reservedRows : List Reservation :=
  [⟨0, 1, 1, 7, 10, 15, "active"⟩, ⟨1, 1, 2, 7, 10, 15, "active"⟩]

/-! ## Generic counting lemmas -/

/-- Counting a disjunction of disjoint predicates adds the counts. -/
theorem countP_or_disjoint {α : Type} (p q : α → Bool) (l : List α)
    (h : ∀ a ∈ l, ¬(p a = true ∧ q a = true)) :
    l.countP (fun a => p a || q a) = l.countP p + l.countP q := by
  induction l with
  | nil => simp
  | cons a l ih =>
    have ha := h a (List.mem_cons_self a l)
    have ih' := ih (fun b hb => h b (List.mem_cons_of_mem a hb))
    simp only [List.countP_cons, ih']
    cases hp : p a <;> cases hq : q a <;> simp_all <;> omega

/-- Counting rows whose key lies in a duplicate-free list of keys is the
sum of the per-key counts. -/
theorem countP_key_partition {α : Type} (key : α → Nat) (q : α → Bool) :
    ∀ (L : List Nat), L.Nodup → ∀ (l : List α),
      l.countP (fun a => L.contains (key a) && q a) =
        (L.map (fun x => l.countP (fun a => key a == x && q a))).sum := by
  intro L
  induction L with
  | nil => intro _ l; simp [List.countP_eq_zero]
  | cons x xs ih =>
    intro hnd l
    have hx : x ∉ xs := (List.nodup_cons.mp hnd).1
    have hxs : xs.Nodup := (List.nodup_cons.mp hnd).2
    have hsplit :
        l.countP (fun a => (x :: xs).contains (key a) && q a) =
          l.countP (fun a => key a == x && q a) +
            l.countP (fun a => xs.contains (key a) && q a) := by
      have := countP_or_disjoint (fun a => key a == x && q a)
        (fun a => xs.contains (key a) && q a) l
        (by
          intro a _ hcc
          rcases hcc with ⟨h1, h2⟩
          have hk : key a = x := by
            have := (Bool.and_eq_true _ _).mp h1
            simpa using this.1
          have hmem : key a ∈ xs := by
            have := (Bool.and_eq_true _ _).mp h2
            simpa using this.1
          exact hx (hk ▸ hmem))
      rw [← this]
      apply List.countP_congr
      intro a _
      simp only [List.contains_cons]
      cases hq : q a <;> cases hkx : (key a == x) <;>
        cases hmem : xs.contains (key a) <;> simp [hq, hkx, hmem]
    rw [hsplit, ih hxs l]
    simp

/-- Two distinct members both satisfying `p` force a count of at least 2. -/
theorem two_le_countP {α : Type} {p : α → Bool} {a b : α} :
    ∀ {l : List α}, a ∈ l → b ∈ l → a ≠ b → p a = true → p b = true →
      2 ≤ l.countP p := by
  intro l
  induction l with
  | nil => intro h; cases h
  | cons c cs ih =>
    intro ha hb hne hpa hpb
    rcases List.mem_cons.mp ha with rfl | ha'
    · rcases List.mem_cons.mp hb with rfl | hb'
      · exact absurd rfl hne
      · have h1 : 0 < cs.countP p :=
          List.countP_pos_iff.mpr ⟨b, hb', hpb⟩
        rw [List.countP_cons, if_pos hpa]
        omega
    · rcases List.mem_cons.mp hb with rfl | hb'
      · have h1 : 0 < cs.countP p :=
          List.countP_pos_iff.mpr ⟨a, ha', hpa⟩
        rw [List.countP_cons, if_pos hpb]
        omega
      · have := ih ha' hb' hne hpa hpb
        simp only [List.countP_cons]
        omega

/-- A list of naturals bounded by 1 sums to at most its length. -/
theorem sum_le_length_of_le_one :
    ∀ {l : List Nat}, (∀ v ∈ l, v ≤ 1) → l.sum ≤ l.length := by
  intro l
  induction l with
  | nil => intro _; simp
  | cons v vs ih =>
    intro h
    have hv := h v (List.mem_cons_self v vs)
    have := ih (fun w hw => h w (List.mem_cons_of_mem v hw))
    simp only [List.sum_cons, List.length_cons]
    omega

/-- When naturals bounded by 1 sum to the length, each equals 1. -/
theorem all_one_of_sum_eq_length :
    ∀ {l : List Nat}, (∀ v ∈ l, v ≤ 1) → l.length ≤ l.sum →
      ∀ v ∈ l, v = 1 := by
  intro l
  induction l with
  | nil => intro _ _ v hv; cases hv
  | cons v vs ih =>
    intro hle hsum w hw
    have hv := hle v (List.mem_cons_self v vs)
    have htail : ∀ x ∈ vs, x ≤ 1 :=
      fun x hx => hle x (List.mem_cons_of_mem v hx)
    have hbound := sum_le_length_of_le_one htail
    simp only [List.sum_cons, List.length_cons] at hsum
    have hv1 : v = 1 := by omega
    rcases List.mem_cons.mp hw with rfl | hw'
    · exact hv1
    · exact ih htail (by omega) w hw'

/-- Summing a map that is constantly 1 on its domain yields the length. -/
theorem sum_map_eq_length {β : Type} (f : β → Nat) :
    ∀ (L : List β), (∀ x ∈ L, f x = 1) → (L.map f).sum = L.length := by
  intro L
  induction L with
  | nil => intro _; simp
  | cons x xs ih =>
    intro h
    have hx := h x (List.mem_cons_self x xs)
    have := ih (fun y hy => h y (List.mem_cons_of_mem x hy))
    simp [hx, this]
    omega

/-- Over rows with duplicate-free keys, at most one row has a given key. -/
theorem countP_le_one_of_nodup_key {α : Type} (key : α → Nat)
    (q : α → Bool) (x : Nat) :
    ∀ {l : List α}, (l.map key).Nodup →
      l.countP (fun a => key a == x && q a) ≤ 1 := by
  intro l
  induction l with
  | nil => intro _; simp
  | cons a as ih =>
    intro hnd
    simp only [List.map_cons, List.nodup_cons] at hnd
    rcases hnd with ⟨hax, has⟩
    by_cases hk : key a = x
    · have hz : as.countP (fun b => key b == x && q b) = 0 := by
        rw [List.countP_eq_zero]
        intro b hb hq
        have hbx : key b = x := by
          have := (Bool.and_eq_true _ _).mp hq
          simpa using this.1
        exact hax (by
          rw [← hk] at hbx
          exact hbx ▸ List.mem_map_of_mem key hb)
      simp only [List.countP_cons, hz]
      split <;> omega
    · have hfalse : (key a == x && q a) = false := by
        have : (key a == x) = false := by
          simpa using hk
        simp [this]
      simp only [List.countP_cons, hfalse]
      have := ih has
      simp only [Bool.false_eq_true, if_false]
      omega

/-! ## Facts about the row transformers -/

@[simp] theorem expireStore_seats (now : Nat) (s : Store) :
    (expireStore now s).seats = s.seats := rfl

@[simp] theorem expireStore_screenings (now : Nat) (s : Store) :
    (expireStore now s).screenings = s.screenings := rfl

@[simp] theorem expireStore_movies (now : Nat) (s : Store) :
    (expireStore now s).movies = s.movies := rfl

@[simp] theorem expireStore_tickets (now : Nat) (s : Store) :
    (expireStore now s).tickets = s.tickets := rfl

@[simp] theorem expireStore_reservations (now : Nat) (s : Store) :
    (expireStore now s).reservations = s.reservations.map (expireRow now) :=
  rfl

/-- A swept row that is still `active` was not touched by the sweep. -/
theorem expireRow_keep {now : Nat} {r : Reservation}
    (h : (expireRow now r).status = "active") : expireRow now r = r := by
  unfold expireRow at h ⊢
  by_cases hc : isExpiredActive now r = true
  · rw [if_pos hc] at h; simp at h
  · rw [if_neg hc]

/-- A superseded row that is still `active` was not touched. -/
theorem supersedeRow_keep {u sc : Nat} {L : List Nat} {r : Reservation}
    (h : (supersedeRow u sc L r).status = "active") :
    supersedeRow u sc L r = r := by
  unfold supersedeRow at h ⊢
  by_cases hc : ownActive u sc L r = true
  · rw [if_pos hc] at h; simp at h
  · rw [if_neg hc]

/-- A cancel-matched row that is still `active` was not touched. -/
theorem cancelRow_keep {u sc : Nat} {sel : Option (List Nat)}
    {r : Reservation} (h : (cancelRow u sc sel r).status = "active") :
    cancelRow u sc sel r = r := by
  unfold cancelRow at h ⊢
  by_cases hc : cancelMatch u sc sel r = true
  · rw [if_pos hc] at h; simp at h
  · rw [if_neg hc]

/-- A conversion-matched row that is still `active` was not consumed. -/
theorem bookRow_keep {now u sc : Nat} {L : List Nat} {r : Reservation}
    (h : (bookRow now u sc L r).status = "active") :
    bookRow now u sc L r = r := by
  unfold bookRow at h ⊢
  by_cases hc : validHold now u sc L r = true
  · rw [if_pos hc] at h; simp at h
  · rw [if_neg hc]

/-- A ticket that is not `cancelled` was not touched by `cancel_ticket`. -/
theorem cancelTicketRow_keep {tid : Nat} {tk : Ticket}
    (h : (cancelTicketRow tid tk).status ≠ "cancelled") :
    cancelTicketRow tid tk = tk := by
  unfold cancelTicketRow at h ⊢
  by_cases hc : (tk.id == tid) = true
  · rw [if_pos hc] at h; simp at h
  · rw [if_neg hc]

/-- Mapping a transformer that leaves every counted row unchanged cannot
increase a count. -/
theorem countP_map_le_of_keep {α : Type} (f : α → α) (p : α → Bool)
    (hf : ∀ a, p (f a) = true → f a = a) (l : List α) :
    (l.map f).countP p ≤ l.countP p := by
  rw [List.countP_map]
  exact List.countP_mono_left (by
    intro a _ hpa
    have := hf a hpa
    simpa [Function.comp, this] using hpa)

/-- The hold-extension rewrite preserves slot liveness at the instant of
the extension. -/
theorem slotLive_extendRow (sc x now u sc0 : Nat) (L : List Nat) (k : Nat)
    (r : Reservation) :
    slotLive sc x now (extendRow now u sc0 L k r) = slotLive sc x now r := by
  unfold extendRow
  split
  · next hv =>
    have hexp : now < r.expiresAt := by
      have := (Bool.and_eq_true _ _).mp hv
      simpa using this.2
    unfold slotLive
    simp only
    have h1 : decide (now < r.expiresAt + k) = true := by
      simp; omega
    have h2 : decide (now < r.expiresAt) = true := by simp [hexp]
    rw [h1, h2]
  · rfl

/-! ## Facts about the freshly created rows -/

theorem mkReservations_length (now u sc : Nat) :
    ∀ (L : List Nat) (base : Nat),
      (mkReservations now u sc L base).length = L.length := by
  intro L
  induction L with
  | nil => intro base; rfl
  | cons x xs ih => intro base; simp [mkReservations, ih]

theorem mkReservations_mem {now u sc : Nat} :
    ∀ {L : List Nat} {base : Nat} {r : Reservation},
      r ∈ mkReservations now u sc L base →
      r.screeningId = sc ∧ r.seatId ∈ L ∧ r.userId = u ∧
        r.status = "active" ∧ r.reservedAt = now ∧
        r.expiresAt = now + RESERVATION_DURATION_MINUTES ∧
        base ≤ r.id := by
  intro L
  induction L with
  | nil => intro base r h; cases h
  | cons x xs ih =>
    intro base r h
    rcases List.mem_cons.mp h with rfl | h'
    · refine ⟨rfl, by simp, rfl, rfl, rfl, rfl, Nat.le_refl _⟩
    · obtain ⟨h1, h2, h3, h4, h5, h6, h7⟩ := ih h'
      exact ⟨h1, List.mem_cons_of_mem x h2, h3, h4, h5, h6, by omega⟩

/-- The fresh rows put exactly one live hold on each requested slot. -/
theorem mkReservations_countP_mine (now u sc t : Nat) {x : Nat} :
    ∀ {L : List Nat} (base : Nat), L.Nodup → x ∈ L →
      t < now + RESERVATION_DURATION_MINUTES →
      (mkReservations now u sc L base).countP (slotLive sc x t) = 1 := by
  intro L
  induction L with
  | nil => intro _ _ hx; cases hx
  | cons y ys ih =>
    intro base hnd hx ht
    have hy : y ∉ ys := (List.nodup_cons.mp hnd).1
    have hys : ys.Nodup := (List.nodup_cons.mp hnd).2
    simp only [mkReservations, List.countP_cons]
    rcases List.mem_cons.mp hx with rfl | hx'
    · have hz : (mkReservations now u sc ys (base + 1)).countP
          (slotLive sc x t) = 0 := by
        rw [List.countP_eq_zero]
        intro r hr hlive
        obtain ⟨-, hmem, -, -, -, -, -⟩ := mkReservations_mem hr
        have : r.seatId = x := by
          have := (Bool.and_eq_true _ _).mp ((Bool.and_eq_true _ _).mp
            ((Bool.and_eq_true _ _).mp hlive).1).1
          simpa using this.2
        exact hy (this ▸ hmem)
      rw [hz]
      have : slotLive sc x t
          ⟨base, sc, x, u, now, now + RESERVATION_DURATION_MINUTES,
            "active"⟩ = true := by
        unfold slotLive
        simp [ht]
      rw [this]
      simp
    · have hne : (y == x) = false := by
        have : y ≠ x := fun hyx => hy (hyx ▸ hx')
        simpa using this
      have : slotLive sc x t
          ⟨base, sc, y, u, now, now + RESERVATION_DURATION_MINUTES,
            "active"⟩ = false := by
        unfold slotLive
        simp only
        rw [hne]
        simp
      rw [this, ih (base + 1) hys hx' ht]
      simp

/-- The fresh rows touch no other slot. -/
theorem mkReservations_countP_other (now u sc t sc' x : Nat)
    (L : List Nat) (base : Nat)
    (h : sc' ≠ sc ∨ x ∉ L) :
    (mkReservations now u sc L base).countP (slotLive sc' x t) = 0 := by
  rw [List.countP_eq_zero]
  intro r hr hlive
  obtain ⟨h1, h2, -, -, -, -, -⟩ := mkReservations_mem hr
  have hsc : r.screeningId = sc' := by
    have := ((Bool.and_eq_true _ _).mp ((Bool.and_eq_true _ _).mp
      ((Bool.and_eq_true _ _).mp hlive).1).1).1
    simpa using this
  have hx : r.seatId = x := by
    have := (Bool.and_eq_true _ _).mp ((Bool.and_eq_true _ _).mp
      ((Bool.and_eq_true _ _).mp hlive).1).1
    simpa using this.2
  rcases h with h | h
  · exact h (hsc ▸ h1)
  · exact h (hx ▸ h2)

theorem mkTickets_length (now u sc price : Nat) (pid : Option String) :
    ∀ (ms : List Reservation) (base : Nat),
      (mkTickets now u sc price pid ms base).length = ms.length := by
  intro ms
  induction ms with
  | nil => intro base; rfl
  | cons r rest ih => intro base; simp [mkTickets, ih]

theorem mkTickets_mem {now u sc price : Nat} {pid : Option String} :
    ∀ {ms : List Reservation} {base : Nat} {tk : Ticket},
      tk ∈ mkTickets now u sc price pid ms base →
      tk.userId = u ∧ tk.screeningId = sc ∧ tk.price = price ∧
        tk.status = "confirmed" ∧ tk.confirmedAt = some now ∧
        tk.paymentId = pid ∧ ∃ r ∈ ms, tk.seatId = r.seatId := by
  intro ms
  induction ms with
  | nil => intro base tk h; cases h
  | cons r rest ih =>
    intro base tk h
    rcases List.mem_cons.mp h with rfl | h'
    · exact ⟨rfl, rfl, rfl, rfl, rfl, rfl, r, List.mem_cons_self r rest, rfl⟩
    · obtain ⟨h1, h2, h3, h4, h5, h6, rr, hrr, h7⟩ := ih h'
      exact ⟨h1, h2, h3, h4, h5, h6, rr, List.mem_cons_of_mem r hrr, h7⟩

/-- Ticket creation preserves the per-seat multiplicities of its input
reservations. -/
theorem mkTickets_countP_seat (now u sc price : Nat) (pid : Option String)
    (x : Nat) :
    ∀ (ms : List Reservation) (base : Nat),
      (mkTickets now u sc price pid ms base).countP
          (fun tk => tk.seatId == x) =
        ms.countP (fun r => r.seatId == x) := by
  intro ms
  induction ms with
  | nil => intro base; rfl
  | cons r rest ih =>
    intro base
    simp only [mkTickets, List.countP_cons, ih]

/-! ## Shape lemmas for the operation results -/

/-- A failing `reserve_seats` leaves the store untouched. -/
theorem reserveSeats_error_fst {now u sc : Nat} {L : List Nat} {s : Store}
    {e : Err} (h : (reserveSeats now u sc L s).2 = .error e) :
    (reserveSeats now u sc L s).1 = s := by
  unfold reserveSeats at h ⊢
  cases hE : reserveSeatsE now u sc L s with
  | ok v => rw [hE] at h; simp at h
  | error e2 => rfl

/-- Everything a successful `reserve_seats` guarantees: the exact committed
store and created rows, and every precondition its guards verified. -/
theorem reserveSeatsE_ok_shape {now u sc : Nat} {L : List Nat} {s s' : Store}
    {rs : List Reservation}
    (h : reserveSeatsE now u sc L s = .ok (s', rs)) :
    rs = mkReservations now u sc L s.nextResId ∧
    s' = { expireStore now s with
            reservations :=
              ((expireStore now s).reservations.map (supersedeRow u sc L)) ++
                mkReservations now u sc L s.nextResId,
            nextResId := s.nextResId + L.length } ∧
    (lockedSeats s.seats L).length = L.length ∧
    s.tickets.filter (bookedConflict sc L) = [] ∧
    ((expireStore now s).reservations).filter (otherHold now u sc L) = [] ∧
    ∃ scr, s.screenings.find? (fun x => x.id == sc) = some scr ∧
      validateSeats s.seats scr.roomId L = .ok () ∧
      ¬ scr.screeningTime < now ∧
      ((s.movies.find? (fun m => m.id == scr.movieId)).any
        (fun m => m.state == "coming_soon")) = false := by
  unfold reserveSeatsE at h
  simp only [expireStore_screenings, expireStore_movies, expireStore_seats,
    expireStore_tickets] at h
  split at h
  · exact absurd h (by simp)
  next scr hfind =>
    split at h
    · exact absurd h (by simp)
    next hmovie =>
      split at h
      · exact absurd h (by simp)
      next hpast =>
        split at h
        · exact absurd h (by simp)
        next hseats =>
          split at h
          next hlock =>
            split at h
            next htick =>
              split at h
              next hothers =>
                obtain ⟨h1, h2⟩ := Prod.mk.injEq .. ▸ (Except.ok.injEq _ _).mp h
                refine ⟨h2.symm, h1.symm, hlock, htick, hothers,
                  scr, hfind, by rw [hseats], hpast, by simpa using hmovie⟩
              · exact absurd h (by simp)
            · exact absurd h (by simp)
          · exact absurd h (by simp)

/-- The inline cleanup never changes whether a row is a conflicting hold of
another user: swept rows were expired, conflicting holds are unexpired. -/
theorem otherHold_expireRow (now u sc : Nat) (L : List Nat)
    (r : Reservation) :
    otherHold now u sc L (expireRow now r) = otherHold now u sc L r := by
  unfold expireRow
  split
  · next hexp =>
    have h1 : otherHold now u sc L { r with status := "expired" } = false := by
      unfold otherHold
      simp
    have h2 : otherHold now u sc L r = false := by
      have := (Bool.and_eq_true _ _).mp hexp
      have hlt : r.expiresAt < now := by simpa using this.2
      unfold otherHold
      have : decide (now < r.expiresAt) = false := by simp; omega
      simp [this]
    rw [h1, h2]
  · rfl

/-- Seat-row locking succeeds only for duplicate-free seat-id requests:
`SELECT ... WHERE id IN (...)` returns each row once. -/
theorem nodup_of_locked {s : Store} {L : List Nat} (hseats : SeatsOk s)
    (hlock : (lockedSeats s.seats L).length = L.length) : L.Nodup := by
  have hsub : ((lockedSeats s.seats L).map (fun st => st.id)).Sublist
      (s.seats.map (fun st => st.id)) :=
    List.Sublist.map _ (List.filter_sublist s.seats)
  have hnd : ((lockedSeats s.seats L).map (fun st => st.id)).Nodup :=
    List.Nodup.sublist hsub hseats
  have hmem : ∀ i ∈ (lockedSeats s.seats L).map (fun st => st.id), i ∈ L := by
    intro i hi
    rcases List.mem_map.mp hi with ⟨st, hst, rfl⟩
    have := (List.mem_filter.mp hst).2
    simpa using this
  have hsub2 : ((lockedSeats s.seats L).map (fun st => st.id)).toFinset ⊆
      L.toFinset := by
    intro i hi
    rcases List.mem_toFinset.mp hi with hi'
    exact List.mem_toFinset.mpr (hmem i hi')
  have hcard : L.length ≤ L.toFinset.card := by
    calc L.length = (lockedSeats s.seats L).length := hlock.symm
      _ = ((lockedSeats s.seats L).map (fun st => st.id)).length :=
        (List.length_map _ _).symm
      _ = ((lockedSeats s.seats L).map (fun st => st.id)).toFinset.card :=
        (List.toFinset_card_of_nodup hnd).symm
      _ ≤ L.toFinset.card := Finset.card_le_card hsub2
  have hdedup : L.length ≤ L.dedup.length := by
    rw [← List.card_toFinset]
    exact hcard
  have : L.dedup = L :=
    List.Sublist.eq_of_length (List.dedup_sublist L)
      (Nat.le_antisymm (List.Sublist.length_le (List.dedup_sublist L)) hdedup)
  rw [← this]
  exact List.nodup_dedup L

/-- Conversely, a duplicate-free request over existing seats locks exactly
its own number of rows. -/
theorem locked_length_of_exists {s : Store} {L : List Nat}
    (hseats : SeatsOk s) (hnd : L.Nodup)
    (hex : ∀ x ∈ L, ∃ st ∈ s.seats, st.id = x) :
    (lockedSeats s.seats L).length = L.length := by
  unfold lockedSeats
  rw [← List.countP_eq_length_filter]
  have hcong : s.seats.countP (fun st => L.contains st.id) =
      s.seats.countP (fun st => L.contains st.id && true) := by
    apply List.countP_congr
    intro st _
    simp
  rw [hcong,
    countP_key_partition (fun st : Seat => st.id) (fun _ => true) L hnd s.seats]
  apply sum_map_eq_length
  intro x hx
  have hseatsnd : (s.seats.map (fun st => st.id)).Nodup := hseats
  have hle : s.seats.countP (fun st => st.id == x && true) ≤ 1 :=
    countP_le_one_of_nodup_key (fun st : Seat => st.id) (fun _ => true) x hseatsnd
  have hge : 0 < s.seats.countP (fun st => st.id == x && true) := by
    rcases hex x hx with ⟨st, hst, hid⟩
    exact List.countP_pos_iff.mpr ⟨st, hst, by simp [hid]⟩
  omega

/-- The always-dead `"booked"` double-check of `extend_reservation`:
validated rows are `active`. -/
theorem validHold_not_booked (now u sc : Nat) (L : List Nat) (s : Store) :
    (s.reservations.filter (validHold now u sc L)).filter
      (fun r => r.status == "booked") = [] := by
  rw [List.filter_eq_nil_iff]
  intro r hr
  have hv := (List.mem_filter.mp hr).2
  have hact : r.status = "active" := by
    have := (Bool.and_eq_true _ _).mp ((Bool.and_eq_true _ _).mp hv).1
    simpa using this.2
  simp [hact]

/-- A failing `extend_reservation` leaves the store untouched. -/
theorem extendReservation_error_fst {now u sc k : Nat} {L : List Nat}
    {s : Store} {e : Err}
    (h : (extendReservation now u sc L k s).2 = .error e) :
    (extendReservation now u sc L k s).1 = s := by
  unfold extendReservation at h ⊢
  cases hE : extendReservationE now u sc L k s with
  | ok v => rw [hE] at h; simp at h
  | error e2 => rfl

/-- Shape of a successful `extend_reservation`. -/
theorem extendReservationE_ok_shape {now u sc k : Nat} {L : List Nat}
    {s s' : Store} {rs : List Reservation}
    (h : extendReservationE now u sc L k s = .ok (s', rs)) :
    (lockedSeats s.seats L).length = L.length ∧
    (s.reservations.filter (validHold now u sc L)).length = L.length ∧
    s' = { s with reservations :=
            s.reservations.map (extendRow now u sc L k) } ∧
    rs = (s.reservations.filter (validHold now u sc L)).map
      (extendRow now u sc L k) := by
  unfold extendReservationE at h
  split at h
  next hlock =>
    split at h
    next hmatch =>
      split at h
      next hbooked =>
        obtain ⟨h1, h2⟩ := Prod.mk.injEq .. ▸ (Except.ok.injEq _ _).mp h
        exact ⟨hlock, hmatch, h1.symm, h2.symm⟩
      · exact absurd h (by simp)
    · exact absurd h (by simp)
  · exact absurd h (by simp)

/-- Evaluation of `extend_reservation` when the strict validation fails. -/
theorem extendReservationE_count_error {now u sc k : Nat} {L : List Nat}
    {s : Store}
    (hlock : (lockedSeats s.seats L).length = L.length)
    (hmm : (s.reservations.filter (validHold now u sc L)).length ≠
      L.length) :
    extendReservationE now u sc L k s =
      .error (.cannotExtend
        (L.length -
          (s.reservations.filter (validHold now u sc L)).length)) := by
  unfold extendReservationE
  rw [if_pos hlock, if_neg hmm]

/-- Evaluation of `extend_reservation` when the strict validation holds. -/
theorem extendReservationE_ok_eval {now u sc k : Nat} {L : List Nat}
    {s : Store}
    (hlock : (lockedSeats s.seats L).length = L.length)
    (hmatch : (s.reservations.filter (validHold now u sc L)).length =
      L.length) :
    extendReservationE now u sc L k s =
      .ok ({ s with reservations :=
              s.reservations.map (extendRow now u sc L k) },
           (s.reservations.filter (validHold now u sc L)).map
             (extendRow now u sc L k)) := by
  unfold extendReservationE
  rw [if_pos hlock, if_pos hmatch, if_pos (validHold_not_booked now u sc L s)]

/-- A failing `book_tickets_from_reservation` leaves the store untouched. -/
theorem bookFromReservation_error_fst {now u sc : Nat} {L : List Nat}
    {pid : Option String} {s : Store} {e : Err}
    (h : (bookFromReservation now u sc L pid s).2 = .error e) :
    (bookFromReservation now u sc L pid s).1 = s := by
  unfold bookFromReservation at h ⊢
  cases hE : bookFromReservationE now u sc L pid s with
  | ok v => rw [hE] at h; simp at h
  | error e2 => rfl

/-- Shape of a successful `book_tickets_from_reservation`: either the
idempotency probe answered, or the conversion ran. -/
theorem bookFromReservationE_ok_cases {now u sc : Nat} {L : List Nat}
    {pid : Option String} {s s' : Store} {ts : List Ticket}
    (h : bookFromReservationE now u sc L pid s = .ok (s', ts)) :
    (pid.isSome = true ∧ s.tickets.filter (idemTicket u sc L) ≠ [] ∧
      (s.tickets.filter (idemTicket u sc L)).length = L.length ∧
      s' = s ∧ ts = s.tickets.filter (idemTicket u sc L)) ∨
    ((lockedSeats s.seats L).length = L.length ∧
      (s.reservations.filter (validHold now u sc L)).length = L.length ∧
      ∃ scr, s.screenings.find? (fun x => x.id == sc) = some scr ∧
        ts = mkTickets now u sc scr.price pid
          (s.reservations.filter (validHold now u sc L)) s.nextTicketId ∧
        s' = { s with
                tickets := s.tickets ++ ts,
                reservations := s.reservations.map (bookRow now u sc L),
                nextTicketId := s.nextTicketId +
                  (s.reservations.filter
                    (validHold now u sc L)).length }) := by
  unfold bookFromReservationE at h
  split at h
  next hidem =>
    obtain ⟨h1, h2⟩ := Prod.mk.injEq .. ▸ (Except.ok.injEq _ _).mp h
    exact Or.inl ⟨hidem.1, hidem.2.1, hidem.2.2, h1.symm, h2.symm⟩
  next hnidem =>
    split at h
    next hlock =>
      split at h
      next hmatch =>
        split at h
        · exact absurd h (by simp)
        next scr hfind =>
          obtain ⟨h1, h2⟩ := Prod.mk.injEq .. ▸ (Except.ok.injEq _ _).mp h
          refine Or.inr ⟨hlock, hmatch, scr, hfind, h2.symm, ?_⟩
          rw [← h1, ← h2]
      · exact absurd h (by simp)
    · exact absurd h (by simp)

/-! ## Preservation of the invariant -/

theorem slotLive_elim {sc x t : Nat} {r : Reservation}
    (h : slotLive sc x t r = true) :
    r.screeningId = sc ∧ r.seatId = x ∧ r.status = "active" ∧
      t < r.expiresAt := by
  unfold slotLive at h
  have h1 := (Bool.and_eq_true _ _).mp h
  have h2 := (Bool.and_eq_true _ _).mp h1.1
  have h3 := (Bool.and_eq_true _ _).mp h2.1
  exact ⟨by simpa using h3.1, by simpa using h3.2, by simpa using h2.2,
    by simpa using h1.2⟩

theorem slotLive_intro {sc x t : Nat} {r : Reservation}
    (h1 : r.screeningId = sc) (h2 : r.seatId = x) (h3 : r.status = "active")
    (h4 : t < r.expiresAt) : slotLive sc x t r = true := by
  unfold slotLive
  simp [h1, h2, h3, h4]

theorem validHold_elim {now u sc : Nat} {L : List Nat} {r : Reservation}
    (h : validHold now u sc L r = true) :
    r.screeningId = sc ∧ r.seatId ∈ L ∧ r.userId = u ∧
      r.status = "active" ∧ now < r.expiresAt := by
  unfold validHold at h
  have h1 := (Bool.and_eq_true _ _).mp h
  have h2 := (Bool.and_eq_true _ _).mp h1.1
  have h3 := (Bool.and_eq_true _ _).mp h2.1
  have h4 := (Bool.and_eq_true _ _).mp h3.1
  exact ⟨by simpa using h4.1, by simpa using h4.2, by simpa using h3.2,
    by simpa using h2.2, by simpa using h1.2⟩

theorem validHold_slotLive {now u sc : Nat} {L : List Nat} {r : Reservation}
    (h : validHold now u sc L r = true) :
    slotLive sc r.seatId now r = true := by
  obtain ⟨h1, h2, h3, h4, h5⟩ := validHold_elim h
  exact slotLive_intro h1 rfl h4 h5

theorem slotLive_mono {sc x t t' : Nat} {r : Reservation} (htt : t ≤ t')
    (h : slotLive sc x t' r = true) : slotLive sc x t r = true := by
  obtain ⟨h1, h2, h3, h4⟩ := slotLive_elim h
  exact slotLive_intro h1 h2 h3 (by omega)

theorem SlotMutex_mono {s : Store} {t t' : Nat} (h : SlotMutex s t)
    (htt : t ≤ t') : SlotMutex s t' := by
  intro sc x
  have hle : s.reservations.countP (slotLive sc x t') ≤
      s.reservations.countP (slotLive sc x t) :=
    List.countP_mono_left (fun r _ hr => slotLive_mono htt hr)
  exact Nat.le_trans hle (h sc x)

theorem Inv_mono {s : Store} {t t' : Nat} (h : Inv s t) (htt : t ≤ t') :
    Inv s t' := by
  obtain ⟨hm, hc, ht, hs⟩ := h
  refine ⟨SlotMutex_mono hm htt, ?_, ht, hs⟩
  intro r hr hact hexp tk htk h1 h2
  exact hc r hr hact (by omega) tk htk h1 h2

/-- Preservation through a status-killing rewrite of the reservations. -/
theorem SlotMutex_map_keep {s : Store} {t : Nat}
    (f : Reservation → Reservation)
    (hf : ∀ r, (f r).status = "active" → f r = r) (h : SlotMutex s t) :
    ∀ sc x, (s.reservations.map f).countP (slotLive sc x t) ≤ 1 := by
  intro sc x
  have := countP_map_le_of_keep f (slotLive sc x t)
    (fun r hr => hf r (slotLive_elim hr).2.2.1) s.reservations
  exact Nat.le_trans this (h sc x)

theorem cleanup_inv {s : Store} {t : Nat} (h : Inv s t) :
    Inv (expireStore t s) t := by
  obtain ⟨hm, hc, ht, hs⟩ := h
  refine ⟨?_, ?_, ht, hs⟩
  · intro sc x
    exact SlotMutex_map_keep (expireRow t) (fun r => expireRow_keep) hm sc x
  · intro r' hr' hact hexp tk htk h1 h2
    rcases List.mem_map.mp hr' with ⟨r, hr, rfl⟩
    have hkeep : expireRow t r = r := expireRow_keep hact
    rw [hkeep] at hact hexp h1 h2
    exact hc r hr hact hexp tk htk h1 h2

theorem cancelRes_inv {u sc : Nat} {sel : Option (List Nat)} {s : Store}
    {t : Nat} (h : Inv s t) : Inv (cancelReservations u sc sel s).1 t := by
  obtain ⟨hm, hc, ht, hs⟩ := h
  refine ⟨?_, ?_, ht, hs⟩
  · intro sc' x
    exact SlotMutex_map_keep (cancelRow u sc sel)
      (fun r => cancelRow_keep) hm sc' x
  · intro r' hr' hact hexp tk htk h1 h2
    rcases List.mem_map.mp hr' with ⟨r, hr, rfl⟩
    have hkeep : cancelRow u sc sel r = r := cancelRow_keep hact
    rw [hkeep] at hact hexp h1 h2
    exact hc r hr hact hexp tk htk h1 h2

theorem cancelTicket_inv {tid u : Nat} {s : Store} {t : Nat} (h : Inv s t) :
    Inv (cancelTicket tid u s).1 t := by
  unfold cancelTicket
  cases hE : cancelTicketE tid u s with
  | error e => exact h
  | ok v =>
    obtain ⟨s', tk0⟩ := v
    simp only
    unfold cancelTicketE at hE
    split at hE
    · exact absurd hE (by simp)
    next tkf hfind =>
      split at hE
      · split at hE
        · exact absurd hE (by simp)
        · obtain ⟨h1, h2⟩ := Prod.mk.injEq .. ▸ (Except.ok.injEq _ _).mp hE
          rw [← h1]
          obtain ⟨hm, hc, ht, hs⟩ := h
          refine ⟨hm, ?_, ?_, hs⟩
          · intro r hr hact hexp tk' htk' hh1 hh2
            rcases List.mem_map.mp htk' with ⟨tk, htk, rfl⟩
            by_cases hcc : (cancelTicketRow tid tk).status = "cancelled"
            · constructor
              · intro hcontra; rw [hcontra] at hcc; exact absurd hcc (by simp)
              · intro hcontra; rw [hcontra] at hcc; exact absurd hcc (by simp)
            · have hkeep := cancelTicketRow_keep hcc
              rw [hkeep] at hh1 hh2 ⊢
              exact hc r hr hact hexp tk htk hh1 hh2
          · intro tk' htk'
            rcases List.mem_map.mp htk' with ⟨tk, htk, rfl⟩
            unfold cancelTicketRow
            split
            · right; rfl
            · exact ht tk htk
      · exact absurd hE (by simp)

theorem extend_inv {now u sc k : Nat} {L : List Nat} {s : Store}
    (h : Inv s now) : Inv (extendReservation now u sc L k s).1 now := by
  unfold extendReservation
  cases hE : extendReservationE now u sc L k s with
  | error e => exact h
  | ok v =>
    obtain ⟨s', rs⟩ := v
    simp only
    obtain ⟨hlock, hmatch, hs', hrs⟩ := extendReservationE_ok_shape hE
    rw [hs']
    obtain ⟨hm, hc, ht, hs⟩ := h
    refine ⟨?_, ?_, ht, hs⟩
    · intro sc' x
      have hcong : (s.reservations.map (extendRow now u sc L k)).countP
          (slotLive sc' x now) = s.reservations.countP (slotLive sc' x now) := by
        rw [List.countP_map]
        apply List.countP_congr
        intro r _
        simp only [Function.comp_apply]
        rw [slotLive_extendRow sc' x now u sc L k r]
      rw [hcong]
      exact hm sc' x
    · intro r' hr' hact hexp tk htk h1 h2
      rcases List.mem_map.mp hr' with ⟨r, hr, rfl⟩
      by_cases hv : validHold now u sc L r = true
      · obtain ⟨-, -, -, hact0, hexp0⟩ := validHold_elim hv
        have hscr : (extendRow now u sc L k r).screeningId = r.screeningId := by
          unfold extendRow; split <;> rfl
        have hseat : (extendRow now u sc L k r).seatId = r.seatId := by
          unfold extendRow; split <;> rfl
        rw [hscr] at h1
        rw [hseat] at h2
        exact hc r hr hact0 hexp0 tk htk h1 h2
      · have : extendRow now u sc L k r = r := by
          unfold extendRow
          rw [if_neg hv]
        rw [this] at hact hexp h1 h2
        exact hc r hr hact hexp tk htk h1 h2

/-- A member of the rewritten (swept + superseded) reservation list that is
still a live hold is an untouched original row. -/
theorem mapped_live_orig {t u sc : Nat} {L : List Nat} {s : Store}
    {sc' x : Nat} {rr : Reservation}
    (hrr : rr ∈ ((expireStore t s).reservations.map (supersedeRow u sc L)))
    (hlive : slotLive sc' x t rr = true) :
    rr ∈ s.reservations ∧ ownActive u sc L rr = false ∧
      isExpiredActive t rr = false := by
  rcases List.mem_map.mp hrr with ⟨r0, hr0, rfl⟩
  have hact : (supersedeRow u sc L r0).status = "active" :=
    (slotLive_elim hlive).2.2.1
  have hkeep1 : supersedeRow u sc L r0 = r0 := supersedeRow_keep hact
  rw [hkeep1] at hact ⊢
  rcases List.mem_map.mp (by simpa using hr0) with ⟨r, hr, rfl⟩
  have hkeep2 : expireRow t r = r := expireRow_keep hact
  rw [hkeep2] at hact ⊢
  refine ⟨hr, ?_, ?_⟩
  · by_contra hcontra
    have hown : ownActive u sc L r = true := by
      cases hoa : ownActive u sc L r
      · exact absurd hoa hcontra
      · rfl
    have : supersedeRow u sc L r = { r with status := "cancelled" } := by
      unfold supersedeRow
      rw [if_pos hown]
    rw [hkeep2] at hkeep1
    rw [this] at hkeep1
    have := congrArg Reservation.status hkeep1
    simp at this
    rw [← this] at hact
    simp at hact
  · by_contra hcontra
    have hexp : isExpiredActive t r = true := by
      cases hie : isExpiredActive t r
      · exact absurd hie hcontra
      · rfl
    have : expireRow t r = { r with status := "expired" } := by
      unfold expireRow
      rw [if_pos hexp]
    rw [this] at hkeep2
    have := congrArg Reservation.status hkeep2
    simp at this
    rw [← this] at hact
    simp at hact

theorem reserve_inv {t u sc : Nat} {L : List Nat} {s : Store}
    (h : Inv s t) : Inv (reserveSeats t u sc L s).1 t := by
  unfold reserveSeats
  cases hE : reserveSeatsE t u sc L s with
  | error e => exact h
  | ok v =>
    obtain ⟨s', rs⟩ := v
    simp only
    obtain ⟨hrs, hs', hlock, htick, hothers, scr, hfind, hval, hpast,
      hmovie⟩ := reserveSeatsE_ok_shape hE
    obtain ⟨hm, hc, ht, hsok⟩ := h
    have hnd : L.Nodup := nodup_of_locked hsok hlock
    rw [hs']
    refine ⟨?_, ?_, ht, hsok⟩
    · -- SlotMutex
      intro sc' x
      simp only
      rw [List.countP_append]
      by_cases hmine : sc' = sc ∧ x ∈ L
      · obtain ⟨hscq, hxL⟩ := hmine
        subst hscq
        have hmap0 : ((expireStore t s).reservations.map
            (supersedeRow u sc' L)).countP (slotLive sc' x t) = 0 := by
          rw [List.countP_eq_zero]
          intro rr hrr hlive
          obtain ⟨hr, hown, hexp⟩ := mapped_live_orig hrr hlive
          obtain ⟨hsc0, hx0, hact0, hexp0⟩ := slotLive_elim hlive
          by_cases hu : rr.userId = u
          · -- the caller's own active rows were all superseded
            have hown2 : ownActive u sc' L rr = true := by
              unfold ownActive
              simp [hsc0, hx0 ▸ hxL, hu, hact0]
            rw [hown2] at hown
            simp at hown
          · -- a live hold of another user would have tripped the guard
            have hoth : otherHold t u sc' L rr = true := by
              unfold otherHold
              simp [hsc0, hx0 ▸ hxL, hact0, hexp0, hu]
            have hin : rr ∈ (expireStore t s).reservations := by
              simp only [expireStore_reservations]
              rcases List.mem_map.mp hrr with ⟨r0, hr0, rfl⟩
              have hact1 : (supersedeRow u sc' L r0).status = "active" :=
                (slotLive_elim hlive).2.2.1
              rw [supersedeRow_keep hact1]
              simpa using hr0
            have := List.filter_eq_nil_iff.mp hothers rr hin
            exact this hoth
        rw [hmap0, mkReservations_countP_mine t u sc' t s.nextResId hnd hxL
          (by unfold RESERVATION_DURATION_MINUTES; omega)]
      · have hnew0 : (mkReservations t u sc L s.nextResId).countP
            (slotLive sc' x t) = 0 := by
          apply mkReservations_countP_other
          by_cases hsc' : sc' = sc
          · right
            intro hxL
            exact hmine ⟨hsc', hxL⟩
          · left
            exact hsc'
        rw [hnew0]
        have hle1 : ((expireStore t s).reservations.map
            (supersedeRow u sc L)).countP (slotLive sc' x t) ≤
            (expireStore t s).reservations.countP (slotLive sc' x t) :=
          countP_map_le_of_keep _ _
            (fun r hr => supersedeRow_keep (slotLive_elim hr).2.2.1) _
        have hle2 : (expireStore t s).reservations.countP
            (slotLive sc' x t) ≤ s.reservations.countP (slotLive sc' x t) := by
          simp only [expireStore_reservations]
          exact countP_map_le_of_keep _ _
            (fun r hr => expireRow_keep (slotLive_elim hr).2.2.1) _
        have := hm sc' x
        omega
    · -- NoCoexist
      intro r' hr' hact hexp tk htk h1 h2
      simp only at htk
      rcases List.mem_append.mp hr' with hr' | hr'
      · obtain ⟨hr, -, -⟩ := mapped_live_orig hr'
          (slotLive_intro rfl rfl hact hexp)
        exact hc r' hr hact hexp tk htk h1 h2
      · obtain ⟨hsc0, hx0, -, -, -, -, -⟩ := mkReservations_mem hr'
        constructor
        · intro hconf
          have : bookedConflict sc L tk = true := by
            unfold bookedConflict
            have hxL : tk.seatId ∈ L := by rw [h2]; exact hx0
            simp [h1, hsc0, hxL, hconf]
          exact List.filter_eq_nil_iff.mp htick tk htk this
        · intro hpend
          rcases ht tk htk with hconf | hcanc
          · rw [hpend] at hconf; exact absurd hconf (by simp)
          · rw [hpend] at hcanc; exact absurd hcanc (by simp)

theorem bookFrom_inv {t u sc : Nat} {L : List Nat} {pid : Option String}
    {s : Store} (h : Inv s t) : Inv (bookFromReservation t u sc L pid s).1 t := by
  unfold bookFromReservation
  cases hE : bookFromReservationE t u sc L pid s with
  | error e => exact h
  | ok v =>
    obtain ⟨s', ts⟩ := v
    simp only
    rcases bookFromReservationE_ok_cases hE with
      ⟨-, -, -, rfl, -⟩ | ⟨hlock, hmatch, scr, hfind, hts, hs'⟩
    · exact h
    · obtain ⟨hm, hc, ht, hsok⟩ := h
      rw [hs']
      refine ⟨?_, ?_, ?_, hsok⟩
      · -- SlotMutex: booking only removes live holds
        intro sc' x
        simp only
        have := countP_map_le_of_keep (bookRow t u sc L) (slotLive sc' x t)
          (fun r hr => bookRow_keep (slotLive_elim hr).2.2.1) s.reservations
        exact Nat.le_trans this (hm sc' x)
      · -- NoCoexist
        intro r' hr' hact hexp tk htk h1 h2
        simp only at hr' htk
        rcases List.mem_map.mp hr' with ⟨r, hr, rfl⟩
        have hkeep : bookRow t u sc L r = r := bookRow_keep hact
        have hnv : validHold t u sc L r = false := by
          cases hv : validHold t u sc L r
          · rfl
          · have hbr : bookRow t u sc L r = { r with status := "booked" } := by
              unfold bookRow
              rw [if_pos hv]
            rw [hbr] at hact
            simp at hact
        rw [hkeep] at hact hexp h1 h2
        rcases List.mem_append.mp htk with htk | htk
        · exact hc r hr hact hexp tk htk h1 h2
        · -- a fresh ticket shares a slot with a surviving live hold:
          -- impossible, the consumed reservation was the unique live hold
          rw [hts] at htk
          obtain ⟨-, hscr, -, -, -, -, rm, hrm, hseat⟩ := mkTickets_mem htk
          have hrmv := (List.mem_filter.mp hrm).2
          have hrml := (List.mem_filter.mp hrm).1
          obtain ⟨hrm1, -, -, hrm4, hrm5⟩ := validHold_elim hrmv
          have hne : r ≠ rm := by
            intro hcontra
            rw [hcontra] at hnv
            rw [hnv] at hrmv
            exact absurd hrmv (by simp)
          have hp1 : slotLive r.screeningId r.seatId t r = true :=
            slotLive_intro rfl rfl hact hexp
          have hp2 : slotLive r.screeningId r.seatId t rm = true := by
            apply slotLive_intro
            · rw [hrm1, ← h1, hscr]
            · rw [← hseat, ← h2]
            · exact hrm4
            · exact hrm5
          have h2c := two_le_countP hr hrml hne hp1 hp2
          have := hm r.screeningId r.seatId
          omega
      · -- TicketsTame
        intro tk htk
        simp only at htk
        rcases List.mem_append.mp htk with htk | htk
        · exact ht tk htk
        · rw [hts] at htk
          obtain ⟨-, -, -, hconf, -, -, -⟩ := mkTickets_mem htk
          exact Or.inl hconf

theorem bookDirect_inv {t1 t2 u sc : Nat} {L : List Nat} {s : Store}
    (h : Inv s t1) (h12 : t1 ≤ t2) :
    Inv (bookTickets t1 t2 u sc L s).1 t2 := by
  unfold bookTickets
  cases hE1 : reserveSeatsE t1 u sc L s with
  | error e => exact Inv_mono h h12
  | ok v1 =>
    obtain ⟨s1, rs⟩ := v1
    have hInv1 : Inv s1 t2 := by
      have hh := @reserve_inv t1 u sc L s h
      unfold reserveSeats at hh
      rw [hE1] at hh
      exact Inv_mono hh h12
    show Inv ((match bookFromReservationE t2 u sc L none s1 with
      | Except.ok (s2, ts) => (s2, Except.ok ts)
      | Except.error e =>
        ((cancelReservations u sc (some L) s1).1, Except.error e)).1) t2
    cases hE2 : bookFromReservationE t2 u sc L none s1 with
    | ok v2 =>
      obtain ⟨s2, ts⟩ := v2
      have hh := @bookFrom_inv t2 u sc L none s1 hInv1
      unfold bookFromReservation at hh
      rw [hE2] at hh
      exact hh
    | error e =>
      exact cancelRes_inv hInv1

theorem toggle_inv {t u sc : Nat} {L : List Nat} {s : Store}
    (h : Inv s t) : Inv (toggleSeat t u sc L s).1 t := by
  unfold toggleSeat
  split
  · exact cancelRes_inv h
  · exact reserve_inv h

/-- Every reachable state satisfies the inductive invariant. -/
theorem Reachable_inv {s : Store} {t : Nat} (h : Reachable s t) :
    Inv s t := by
  induction h with
  | init seats screenings movies t0 hseats =>
    refine ⟨?_, ?_, ?_, hseats⟩
    · intro sc x
      simp
    · intro r hr
      cases hr
    · intro tk htk
      cases htk
  | tick t' hr htt ih => exact Inv_mono ih htt
  | reserve t' u sc L hr htt ih => exact reserve_inv (Inv_mono ih htt)
  | toggle t' u sc L hr htt ih => exact toggle_inv (Inv_mono ih htt)
  | extend t' u sc L k hr htt ih => exact extend_inv (Inv_mono ih htt)
  | cancelRes t' u sc seatIds hr htt ih => exact cancelRes_inv (Inv_mono ih htt)
  | cleanup t' hr htt ih => exact cleanup_inv (Inv_mono ih htt)
  | bookFrom t' u sc L pid hr htt ih => exact bookFrom_inv (Inv_mono ih htt)
  | bookDirect t1 t2 u sc L hr ht1 h12 ih =>
    exact bookDirect_inv (Inv_mono ih ht1) h12
  | cancelTk t' tid u hr htt ih => exact cancelTicket_inv (Inv_mono ih htt)

/-! ## Claim theorems -/

/-- C1: in every state reachable by any sequence of the public operations
(ReserveSeats, ToggleSeat, ExtendReservations, CancelReservations,
CleanupExpired, BookFromReservation, BookDirect, CancelTicket), every
(screening, seat) pair has at most one reservation in status `active` with
`expires_at` in the future, and no such active unexpired reservation
coexists with a `confirmed` or `pending` ticket for the same pair. -/
theorem C1_per_slot_mutual_exclusion {s : Store} {t : Nat}
    (h : Reachable s t) : SlotMutex s t ∧ NoCoexist s t :=
  ⟨(Reachable_inv h).1, (Reachable_inv h).2.1⟩

/-- Witness for C1 at a concrete reachable state. -/
theorem C1_per_slot_mutual_exclusion_witness :
    SlotMutex (reserveSeats 10 7 1 [1, 2] demoStore).1 10 ∧
    NoCoexist (reserveSeats 10 7 1 [1, 2] demoStore).1 10 :=
  C1_per_slot_mutual_exclusion
    (Reachable.reserve 10 7 1 [1, 2]
      (Reachable.init demoSeats demoScreenings demoMovies 0 (by decide))
      (by omega))

/-- C6 (code bug evidence): with only a `pending` ticket of user 5 on
(screening 1, seat 1), a reservation attempt by user 2 on that very seat
succeeds and creates an active hold, instead of failing with the
"already booked" conflict the specification requires — the conflict
filter checks statuses `confirmed`/`booked` and omits `pending`. -/
theorem C6_pending_ticket_not_blocking :
    (pendingStore.tickets.filter (fun tk => tk.screeningId == 1 &&
      tk.seatId == 1 && tk.status == "pending")).length = 1 ∧
    (reserveSeats 10 2 1 [1] pendingStore).2 =
      .ok [⟨0, 1, 1, 2, 10, 15, "active"⟩] := by
  constructor
  · rfl
  · rfl

/-- C8 counterexample: a reservation whose `expires_at` equals the sweep
instant exactly is *not* transitioned — the sweep matches strictly
`expires_at < now`, while the claim demands `expires_at ≤ now`. -/
theorem C8_boundary_not_swept :
    boundaryStore.reservations.countP
      (fun r => r.status == "active" && decide (r.expiresAt ≤ 5)) = 1 ∧
    (cleanupExpired 5 boundaryStore).2.1 = 0 ∧
    (cleanupExpired 5 boundaryStore).1 = boundaryStore := by
  refine ⟨rfl, rfl, ?_⟩
  show expireStore 5 boundaryStore = boundaryStore
  rfl

/-- C10: `cancel_reservations` with an explicitly empty seat-id list
behaves exactly like the absent selector — Python's `if seat_ids:` is
false for `[]` — so it cancels every active reservation the user holds
for the screening and returns their count. -/
theorem C10_empty_seat_list_cancels_all (u sc : Nat) (s : Store) :
    cancelReservations u sc (some []) s = cancelReservations u sc none s ∧
    (∀ r ∈ s.reservations, r.screeningId = sc → r.userId = u →
      r.status = "active" →
      { r with status := "cancelled" } ∈
        (cancelReservations u sc (some []) s).1.reservations) ∧
    (cancelReservations u sc (some []) s).2 =
      (s.reservations.filter (fun r => r.screeningId == sc &&
        r.userId == u && r.status == "active")).length := by
  have hsel : ∀ x, seatSelector (some ([] : List Nat)) x =
      seatSelector none x := by
    intro x
    rfl
  have hmatch : ∀ r, cancelMatch u sc (some []) r = cancelMatch u sc none r := by
    intro r
    unfold cancelMatch
    rw [hsel]
  have hmatch2 : ∀ r, cancelMatch u sc (some []) r =
      (r.screeningId == sc && r.userId == u && r.status == "active") := by
    intro r
    unfold cancelMatch seatSelector
    simp
  refine ⟨?_, ?_, ?_⟩
  · unfold cancelReservations
    rw [List.map_congr_left (fun r _ => by
      unfold cancelRow
      rw [hmatch r]),
      List.filter_congr (fun r _ => hmatch r)]
    rfl
  · intro r hr h1 h2 h3
    have hcm : cancelMatch u sc (some []) r = true := by
      rw [hmatch2 r]
      simp [h1, h2, h3]
    have : cancelRow u sc (some []) r = { r with status := "cancelled" } := by
      unfold cancelRow
      rw [if_pos hcm]
    unfold cancelReservations
    simp only
    rw [← this]
    exact List.mem_map_of_mem _ hr
  · unfold cancelReservations
    simp only
    rw [List.filter_congr (fun r _ => hmatch2 r)]

/-- Witness for C10 at a store with two active holds of user 7. -/
theorem C10_empty_seat_list_cancels_all_witness :
    cancelReservations 7 1 (some []) holdsStore =
      cancelReservations 7 1 none holdsStore ∧
    (∀ r ∈ holdsStore.reservations, r.screeningId = 1 → r.userId = 7 →
      r.status = "active" →
      { r with status := "cancelled" } ∈
        (cancelReservations 7 1 (some []) holdsStore).1.reservations) ∧
    (cancelReservations 7 1 (some []) holdsStore).2 =
      (holdsStore.reservations.filter (fun r => r.screeningId == 1 &&
        r.userId == 7 && r.status == "active")).length :=
  C10_empty_seat_list_cancels_all 7 1 holdsStore

/-- A passing seat-validation loop found every seat in the screening's
room. -/
theorem validateSeats_ok_mem {seats : List Seat} {roomId : Nat} :
    ∀ {L : List Nat}, validateSeats seats roomId L = .ok () →
      ∀ x ∈ L, ∃ st, seats.find? (fun st0 => st0.id == x) = some st ∧
        st.roomId = roomId := by
  intro L
  induction L with
  | nil => intro _ x hx; cases hx
  | cons y ys ih =>
    intro h x hx
    unfold validateSeats at h
    split at h
    · exact absurd h (by simp)
    next st hfind =>
      split at h
      · exact absurd h (by simp)
      next hroom =>
        rcases List.mem_cons.mp hx with rfl | hx'
        · refine ⟨st, hfind, ?_⟩
          simpa using hroom
        · exact ih h x hx'

/-- C2: if any precondition of ReserveSeats fails for any seat in the list
(screening missing, movie not released, screening in the past, seat
missing, seat not in the room, seat already ticketed, seat actively held
unexpired by a different user), the call returns an error and creates no
reservation for any seat in the list: the store is returned unchanged. -/
theorem C2_all_or_nothing_reserve {now u sc : Nat} {L : List Nat}
    {s : Store}
    (hbad :
      s.screenings.find? (fun x => x.id == sc) = none ∨
      (∃ scr, s.screenings.find? (fun x => x.id == sc) = some scr ∧
        ∃ m, s.movies.find? (fun m0 => m0.id == scr.movieId) = some m ∧
          m.state = "coming_soon") ∨
      (∃ scr, s.screenings.find? (fun x => x.id == sc) = some scr ∧
        scr.screeningTime < now) ∨
      (∃ x ∈ L, s.seats.find? (fun st => st.id == x) = none) ∨
      (∃ x ∈ L, ∃ scr st,
        s.screenings.find? (fun x0 => x0.id == sc) = some scr ∧
        s.seats.find? (fun st0 => st0.id == x) = some st ∧
        st.roomId ≠ scr.roomId) ∨
      (∃ tk ∈ s.tickets, tk.screeningId = sc ∧ tk.seatId ∈ L ∧
        (tk.status = "confirmed" ∨ tk.status = "booked")) ∨
      (∃ r ∈ s.reservations, r.screeningId = sc ∧ r.seatId ∈ L ∧
        r.status = "active" ∧ now < r.expiresAt ∧ r.userId ≠ u)) :
    ∃ e, reserveSeats now u sc L s = (s, .error e) := by
  cases hE : reserveSeatsE now u sc L s with
  | error e =>
    refine ⟨e, ?_⟩
    unfold reserveSeats
    rw [hE]
  | ok v =>
    exfalso
    obtain ⟨s', rs⟩ := v
    obtain ⟨hrs, hs', hlock, htick, hothers, scr, hfind, hval, hpast,
      hmovie⟩ := reserveSeatsE_ok_shape hE
    rcases hbad with hb | hb | hb | hb | hb | hb | hb
    · rw [hfind] at hb
      exact absurd hb (by simp)
    · obtain ⟨scr2, hfind2, m, hm, hcs⟩ := hb
      rw [hfind] at hfind2
      obtain rfl := Option.some.inj hfind2
      rw [hm] at hmovie
      simp [hcs] at hmovie
    · obtain ⟨scr2, hfind2, hpast2⟩ := hb
      rw [hfind] at hfind2
      obtain rfl := Option.some.inj hfind2
      exact hpast hpast2
    · obtain ⟨x, hxL, hnone⟩ := hb
      obtain ⟨st, hst, -⟩ := validateSeats_ok_mem hval x hxL
      rw [hnone] at hst
      exact absurd hst (by simp)
    · obtain ⟨x, hxL, scr2, st2, hfind2, hst2, hroom2⟩ := hb
      rw [hfind] at hfind2
      obtain rfl := Option.some.inj hfind2
      obtain ⟨st, hst, hroom⟩ := validateSeats_ok_mem hval x hxL
      rw [hst2] at hst
      obtain rfl := Option.some.inj hst
      exact hroom2 hroom
    · obtain ⟨tk, htk, h1, h2, h3⟩ := hb
      have hbc : bookedConflict sc L tk = true := by
        unfold bookedConflict
        rcases h3 with h3 | h3 <;> simp [h1, h2, h3]
      exact List.filter_eq_nil_iff.mp htick tk htk hbc
    · obtain ⟨r, hr, h1, h2, h3, h4, h5⟩ := hb
      have hoh : otherHold now u sc L r = true := by
        unfold otherHold
        simp [h1, h2, h3, h4, h5]
      have hne : isExpiredActive now r = false := by
        unfold isExpiredActive
        have hd : decide (r.expiresAt < now) = false := by
          simp
          omega
        rw [hd]
        simp
      have hrow : expireRow now r = r := by
        unfold expireRow
        rw [hne]
        simp
      have hmem : r ∈ (expireStore now s).reservations := by
        simp only [expireStore_reservations]
        rw [← hrow]
        exact List.mem_map_of_mem _ hr
      exact List.filter_eq_nil_iff.mp hothers r hmem hoh

/-- Witness for C2: seat 3 of the group {1,2,3} is held by user 9, so the
whole reserve attempt of user 7 errors and leaves the store unchanged. -/
theorem C2_all_or_nothing_reserve_witness :
    ∃ e, reserveSeats 10 7 1 [1, 2, 3] heldStore = (heldStore, .error e) :=
  C2_all_or_nothing_reserve
    (Or.inr (Or.inr (Or.inr (Or.inr (Or.inr (Or.inr
      ⟨⟨0, 1, 3, 9, 0, 50, "active"⟩, by decide, rfl, by decide, rfl,
        by decide, by decide⟩))))))

/-- C9: in BookDirect, when the reserve step succeeds and the conversion
step then fails, the mandatory compensation cancels the holds the reserve
step created before the error is propagated: every created reservation is
`cancelled` in the final store and no requested seat is left as an active
hold of the caller. -/
theorem C9_mandatory_compensation {now now2 u sc : Nat} {L : List Nat}
    {s s1 : Store} {rs : List Reservation} {e : Err}
    (hres : reserveSeatsE now u sc L s = .ok (s1, rs))
    (hbook : bookFromReservationE now2 u sc L none s1 = .error e) :
    bookTickets now now2 u sc L s =
      ((cancelReservations u sc (some L) s1).1, .error e) ∧
    (∀ r ∈ rs, { r with status := "cancelled" } ∈
      (bookTickets now now2 u sc L s).1.reservations) ∧
    (∀ r ∈ (bookTickets now now2 u sc L s).1.reservations,
      r.screeningId = sc → r.userId = u → r.seatId ∈ L →
        r.status ≠ "active") := by
  have hrun : bookTickets now now2 u sc L s =
      ((cancelReservations u sc (some L) s1).1, .error e) := by
    unfold bookTickets
    rw [hres]
    show (match bookFromReservationE now2 u sc L none s1 with
      | Except.ok (s2, ts) => (s2, Except.ok ts)
      | Except.error e =>
        ((cancelReservations u sc (some L) s1).1, Except.error e)) =
      ((cancelReservations u sc (some L) s1).1, Except.error e)
    rw [hbook]
  obtain ⟨hrs, hs1, -, -, -, -, -, -, -, -⟩ := reserveSeatsE_ok_shape hres
  refine ⟨hrun, ?_, ?_⟩
  · intro r hr
    rw [hrun]
    simp only
    have hmemS1 : r ∈ s1.reservations := by
      rw [hs1]
      simp only
      exact List.mem_append.mpr (Or.inr (hrs ▸ hr))
    rw [hrs] at hr
    obtain ⟨h1, h2, h3, h4, -, -, -⟩ := mkReservations_mem hr
    have hLne : L ≠ [] := by
      intro hcontra
      rw [hcontra] at h2
      cases h2
    have hie : L.isEmpty = false := by
      cases L
      · exact absurd rfl hLne
      · rfl
    have hss : seatSelector (some L) r.seatId = true := by
      show (if L.isEmpty then true else L.contains r.seatId) = true
      rw [hie]
      simp [h2]
    have hcm : cancelMatch u sc (some L) r = true := by
      unfold cancelMatch
      rw [hss]
      simp [h1, h3, h4]
    have hrow : cancelRow u sc (some L) r = { r with status := "cancelled" } := by
      unfold cancelRow
      rw [if_pos hcm]
    unfold cancelReservations
    simp only
    rw [← hrow]
    exact List.mem_map_of_mem _ hmemS1
  · intro r hr h1 h2 h3
    rw [hrun] at hr
    simp only at hr
    unfold cancelReservations at hr
    simp only at hr
    rcases List.mem_map.mp hr with ⟨r0, hr0, rfl⟩
    intro hact
    have hkeep : cancelRow u sc (some L) r0 = r0 := cancelRow_keep hact
    rw [hkeep] at hact h1 h2 h3
    have hLne : L ≠ [] := by
      intro hcontra
      rw [hcontra] at h3
      cases h3
    have hie : L.isEmpty = false := by
      cases L
      · exact absurd rfl hLne
      · rfl
    have hss : seatSelector (some L) r0.seatId = true := by
      show (if L.isEmpty then true else L.contains r0.seatId) = true
      rw [hie]
      simp [h3]
    have hcm : cancelMatch u sc (some L) r0 = true := by
      unfold cancelMatch
      rw [hss]
      simp [h1, h2, hact]
    have : cancelRow u sc (some L) r0 = { r0 with status := "cancelled" } := by
      unfold cancelRow
      rw [if_pos hcm]
    rw [hkeep] at this
    have := congrArg Reservation.status this
    simp at this
    rw [this] at hact
    exact absurd hact (by simp)

/-- Witness for C9: the holds of user 7 expire at 15, the conversion step
runs at 20 and fails, the compensation cancels both rows. -/
theorem C9_mandatory_compensation_witness :
    bookTickets 10 20 7 1 [1, 2] demoStore =
      ((cancelReservations 7 1 (some [1, 2]) reservedMid).1, .error .noValidReservations) ∧
    (∀ r ∈ reservedRows, { r with status := "cancelled" } ∈
      (bookTickets 10 20 7 1 [1, 2] demoStore).1.reservations) ∧
    (∀ r ∈ (bookTickets 10 20 7 1 [1, 2] demoStore).1.reservations,
      r.screeningId = 1 → r.userId = 7 → r.seatId ∈ [1, 2] →
        r.status ≠ "active") :=
  C9_mandatory_compensation rfl rfl

/-- C3: after a first successful conversion with an idempotency key, a
second `book_tickets_from_reservation` call with the same key and seat set
is answered by the idempotency probe: it returns the very tickets the
first call created, leaves the store untouched (no new ticket rows, no
reservation-status changes). -/
theorem C3_idempotent_rebooking {now now2 u sc : Nat} {L : List Nat}
    {k : String} {s s1 : Store} {ts : List Ticket}
    (hL : L ≠ [])
    (hpre : s.tickets.filter (idemTicket u sc L) = [])
    (hfirst : bookFromReservationE now u sc L (some k) s = .ok (s1, ts)) :
    bookFromReservation now2 u sc L (some k) s1 = (s1, .ok ts) := by
  rcases bookFromReservationE_ok_cases hfirst with
    ⟨-, hne, -, -, hts⟩ | ⟨hlock, hmatch, scr, hfind, hts, hs1⟩
  · exact absurd hpre hne
  · have htsfields : ∀ tk ∈ ts, idemTicket u sc L tk = true := by
      intro tk htk
      rw [hts] at htk
      obtain ⟨h1, h2, -, h4, -, -, rm, hrm, h7⟩ := mkTickets_mem htk
      have hrmL : rm.seatId ∈ L := (validHold_elim (List.mem_filter.mp hrm).2).2.1
      unfold idemTicket
      rw [h7]
      simp [h1, h2, h4, hrmL]
    have hfilter : s1.tickets.filter (idemTicket u sc L) = ts := by
      rw [hs1]
      simp only
      rw [List.filter_append, hpre, List.nil_append]
      exact List.filter_eq_self.mpr htsfields
    have htslen : ts.length = L.length := by
      rw [hts, mkTickets_length]
      exact hmatch
    have htsne : ts ≠ [] := by
      intro hcontra
      rw [hcontra] at htslen
      simp at htslen
      cases L
      · exact hL rfl
      · simp at htslen
    unfold bookFromReservation bookFromReservationE
    rw [if_pos ⟨by simp, by rw [hfilter]; exact htsne,
      by rw [hfilter]; exact htslen⟩]
    simp only
    rw [hfilter]

/-- Witness for C3: rebooking seats 1 and 2 of `holdsStore` with key
"PAY-1" after the first conversion. -/
theorem C3_idempotent_rebooking_witness :
    bookFromReservation 40 7 1 [1, 2] (some "PAY-1") bookedOnce =
      (bookedOnce, .ok firstTickets) :=
  @C3_idempotent_rebooking 10 40 7 1 [1, 2] "PAY-1" holdsStore bookedOnce
    firstTickets (by decide) rfl rfl

/-- When the strict validation matched exactly one row per requested seat
(`|matching| = |L|`, at most one owned live hold per seat), each requested
seat contributes exactly one matched row. -/
theorem valid_counts_one {now u sc : Nat} {L : List Nat} {s : Store}
    (hnd : L.Nodup) (hHU : HoldUnique now u sc L s)
    (hmatch : (s.reservations.filter (validHold now u sc L)).length =
      L.length) :
    ∀ x ∈ L, s.reservations.countP
      (fun r => r.seatId == x && validHold now u sc L r) = 1 := by
  have hcnt : s.reservations.countP (validHold now u sc L) = L.length := by
    rw [List.countP_eq_length_filter]
    exact hmatch
  have hcong : s.reservations.countP (validHold now u sc L) =
      s.reservations.countP
        (fun r => L.contains r.seatId && validHold now u sc L r) := by
    apply List.countP_congr
    intro r _
    cases hv : validHold now u sc L r
    · simp
    · have := (validHold_elim hv).2.1
      simp [hv]
      simpa using this
  have hsum : (L.map (fun x => s.reservations.countP
      (fun r => r.seatId == x && validHold now u sc L r))).sum =
      L.length := by
    rw [← countP_key_partition (fun r : Reservation => r.seatId)
      (validHold now u sc L) L hnd s.reservations, ← hcong, hcnt]
  have hle : ∀ v ∈ (L.map (fun x => s.reservations.countP
      (fun r => r.seatId == x && validHold now u sc L r))), v ≤ 1 := by
    intro v hv
    rcases List.mem_map.mp hv with ⟨x, hx, rfl⟩
    have hb := hHU x hx
    have hcc : s.reservations.countP
        (fun r => r.seatId == x && validHold now u sc L r) =
        s.reservations.countP
          (fun r => validHold now u sc L r && r.seatId == x) := by
      apply List.countP_congr
      intro r _
      rw [Bool.and_comm]
    rw [hcc]
    exact hb
  intro x hx
  have hall := all_one_of_sum_eq_length hle (by
    rw [hsum, List.length_map])
  exact hall _ (List.mem_map_of_mem _ hx)

theorem validHold_counts_comm {now u sc : Nat} {L : List Nat} {s : Store}
    (x : Nat) :
    s.reservations.countP
        (fun r => r.seatId == x && validHold now u sc L r) =
      s.reservations.countP
        (fun r => validHold now u sc L r && r.seatId == x) := by
  apply List.countP_congr
  intro r _
  rw [Bool.and_comm]

/-- C4: a successful `book_tickets_from_reservation` on a set of active,
unexpired, caller-owned reservations creates exactly one `confirmed`
ticket per seat, priced at the screening price, carrying the idempotency
key as its booking reference, and flips each source reservation to
`booked`; on any failure nothing is created and no reservation changes
(the store is returned unchanged). -/
theorem C4_booking_conversion_postcondition {now u sc : Nat}
    {L : List Nat} {pid : Option String} {s : Store}
    (hnd : L.Nodup) (hHU : HoldUnique now u sc L s)
    (hpre : s.tickets.filter (idemTicket u sc L) = []) :
    (∀ s' ts, bookFromReservationE now u sc L pid s = .ok (s', ts) →
      ts.length = L.length ∧
      (∀ x ∈ L, ts.countP (fun tk => tk.seatId == x) = 1) ∧
      (∃ scr, s.screenings.find? (fun x0 => x0.id == sc) = some scr ∧
        ∀ tk ∈ ts, tk.status = "confirmed" ∧ tk.price = scr.price ∧
          tk.paymentId = pid ∧ tk.userId = u ∧ tk.screeningId = sc) ∧
      s'.tickets = s.tickets ++ ts ∧
      (∀ r ∈ s.reservations, validHold now u sc L r = true →
        { r with status := "booked" } ∈ s'.reservations) ∧
      (∀ r ∈ s.reservations, validHold now u sc L r = false →
        r ∈ s'.reservations)) ∧
    (∀ e, bookFromReservationE now u sc L pid s = .error e →
      bookFromReservation now u sc L pid s = (s, .error e)) := by
  constructor
  · intro s' ts hok
    rcases bookFromReservationE_ok_cases hok with
      ⟨-, hne, -, -, hts⟩ | ⟨hlock, hmatch, scr, hfind, hts, hs'⟩
    · exact absurd hpre hne
    · have hones := valid_counts_one hnd hHU hmatch
      refine ⟨?_, ?_, ⟨scr, hfind, ?_⟩, ?_, ?_, ?_⟩
      · rw [hts, mkTickets_length]
        exact hmatch
      · intro x hx
        rw [hts, mkTickets_countP_seat, List.countP_filter]
        exact hones x hx
      · intro tk htk
        rw [hts] at htk
        obtain ⟨h1, h2, h3, h4, -, h6, -⟩ := mkTickets_mem htk
        exact ⟨h4, h3, h6, h1, h2⟩
      · rw [hs']
      · intro r hr hv
        rw [hs']
        simp only
        have : bookRow now u sc L r = { r with status := "booked" } := by
          unfold bookRow
          rw [if_pos hv]
        rw [← this]
        exact List.mem_map_of_mem _ hr
      · intro r hr hv
        rw [hs']
        simp only
        have : bookRow now u sc L r = r := by
          unfold bookRow
          rw [hv]
          simp
        rw [← this]
        exact List.mem_map_of_mem _ hr
  · intro e he
    unfold bookFromReservation
    rw [he]

/-- Witness for C4 at `holdsStore` (seats 1 and 2 held by user 7). -/
theorem C4_booking_conversion_postcondition_witness :
    (∀ s' ts, bookFromReservationE 10 7 1 [1, 2] (some "PAY-1") holdsStore =
        .ok (s', ts) →
      ts.length = [1, 2].length ∧
      (∀ x ∈ [1, 2], ts.countP (fun tk => tk.seatId == x) = 1) ∧
      (∃ scr, holdsStore.screenings.find? (fun x0 => x0.id == 1) =
          some scr ∧
        ∀ tk ∈ ts, tk.status = "confirmed" ∧ tk.price = scr.price ∧
          tk.paymentId = some "PAY-1" ∧ tk.userId = 7 ∧
          tk.screeningId = 1) ∧
      s'.tickets = holdsStore.tickets ++ ts ∧
      (∀ r ∈ holdsStore.reservations,
        validHold 10 7 1 [1, 2] r = true →
        { r with status := "booked" } ∈ s'.reservations) ∧
      (∀ r ∈ holdsStore.reservations,
        validHold 10 7 1 [1, 2] r = false →
        r ∈ s'.reservations)) ∧
    (∀ e, bookFromReservationE 10 7 1 [1, 2] (some "PAY-1") holdsStore =
        .error e →
      bookFromReservation 10 7 1 [1, 2] (some "PAY-1") holdsStore =
        (holdsStore, .error e)) :=
  C4_booking_conversion_postcondition (by decide) (by decide) rfl

/-- Seats without a matched row are exactly the shortfall of the matched
count. -/
theorem length_filter_zero_add_sum (c : Nat → Nat) :
    ∀ (L : List Nat), (∀ x ∈ L, c x ≤ 1) →
      (L.filter (fun x => c x == 0)).length + (L.map c).sum = L.length := by
  intro L
  induction L with
  | nil => intro _; rfl
  | cons y ys ih =>
    intro h
    have hy := h y (List.mem_cons_self y ys)
    have hys := ih (fun x hx => h x (List.mem_cons_of_mem y hx))
    simp only [List.map_cons, List.sum_cons]
    rcases Nat.le_one_iff_eq_zero_or_eq_one.mp hy with h0 | h1
    · have : (y :: ys).filter (fun x => c x == 0) =
          y :: ys.filter (fun x => c x == 0) := by
        rw [List.filter_cons_of_pos]
        simp [h0]
      rw [this, h0]
      simp only [List.length_cons]
      omega
    · have : (y :: ys).filter (fun x => c x == 0) =
          ys.filter (fun x => c x == 0) := by
        rw [List.filter_cons_of_neg]
        simp [h1]
      rw [this, h1]
      simp only [List.length_cons]
      omega

/-- C7: extending reservations is all-or-nothing.  When every requested
seat carries an owned, active, unexpired reservation, each one's expiry
advances by exactly `k`; when any seat lacks one, the whole call fails
with a validation error naming the count of offending seats and no
expiry changes (the store is returned unchanged). -/
theorem C7_all_or_nothing_extension {now u sc k : Nat} {L : List Nat}
    {s : Store}
    (hnd : L.Nodup) (hsok : SeatsOk s)
    (hex : ∀ x ∈ L, ∃ st ∈ s.seats, st.id = x)
    (hHU : HoldUnique now u sc L s) :
    ((∀ x ∈ L, ∃ r ∈ s.reservations, validHold now u sc L r = true ∧
        r.seatId = x) →
      extendReservation now u sc L k s =
        ({ s with reservations :=
            s.reservations.map (extendRow now u sc L k) },
         .ok ((s.reservations.filter (validHold now u sc L)).map
           (extendRow now u sc L k))) ∧
      (∀ r ∈ s.reservations, validHold now u sc L r = true →
        { r with expiresAt := r.expiresAt + k } ∈
          (extendReservation now u sc L k s).1.reservations) ∧
      (∀ r ∈ s.reservations, validHold now u sc L r = false →
        r ∈ (extendReservation now u sc L k s).1.reservations)) ∧
    ((∃ x ∈ L, ∀ r ∈ s.reservations,
        ¬(validHold now u sc L r = true ∧ r.seatId = x)) →
      (extendReservation now u sc L k s).1 = s ∧
      (extendReservation now u sc L k s).2 =
        .error (.cannotExtend
          ((L.filter (fun x => (s.reservations.filter
            (fun r => validHold now u sc L r && r.seatId == x)).isEmpty)).length))) := by
  have hlock : (lockedSeats s.seats L).length = L.length :=
    locked_length_of_exists hsok hnd hex
  have hc := fun x => @validHold_counts_comm now u sc L s x
  have hcong : s.reservations.countP (validHold now u sc L) =
      s.reservations.countP
        (fun r => L.contains r.seatId && validHold now u sc L r) := by
    apply List.countP_congr
    intro r _
    cases hv : validHold now u sc L r
    · simp
    · have := (validHold_elim hv).2.1
      simp [hv]
      simpa using this
  have hpart : s.reservations.countP (validHold now u sc L) =
      (L.map (fun x => s.reservations.countP
        (fun r => r.seatId == x && validHold now u sc L r))).sum := by
    rw [hcong]
    exact countP_key_partition (fun r : Reservation => r.seatId)
      (validHold now u sc L) L hnd s.reservations
  have hle : ∀ x ∈ L, s.reservations.countP
      (fun r => r.seatId == x && validHold now u sc L r) ≤ 1 := by
    intro x hx
    rw [hc x]
    exact hHU x hx
  constructor
  · -- all seats valid: success
    intro hall
    have hones : ∀ x ∈ L, s.reservations.countP
        (fun r => r.seatId == x && validHold now u sc L r) = 1 := by
      intro x hx
      have hge : 0 < s.reservations.countP
          (fun r => r.seatId == x && validHold now u sc L r) := by
        obtain ⟨r, hr, hv, hseat⟩ := hall x hx
        exact List.countP_pos_iff.mpr ⟨r, hr, by simp [hv, hseat]⟩
      have := hle x hx
      omega
    have hmatch : (s.reservations.filter (validHold now u sc L)).length =
        L.length := by
      rw [← List.countP_eq_length_filter, hpart,
        sum_map_eq_length _ L hones]
    have hrun : extendReservation now u sc L k s =
        ({ s with reservations :=
            s.reservations.map (extendRow now u sc L k) },
         .ok ((s.reservations.filter (validHold now u sc L)).map
           (extendRow now u sc L k))) := by
      unfold extendReservation
      rw [extendReservationE_ok_eval hlock hmatch]
    refine ⟨hrun, ?_, ?_⟩
    · intro r hr hv
      rw [hrun]
      simp only
      have : extendRow now u sc L k r =
          { r with expiresAt := r.expiresAt + k } := by
        unfold extendRow
        rw [if_pos hv]
      rw [← this]
      exact List.mem_map_of_mem _ hr
    · intro r hr hv
      rw [hrun]
      simp only
      have : extendRow now u sc L k r = r := by
        unfold extendRow
        rw [hv]
        simp
      rw [← this]
      exact List.mem_map_of_mem _ hr
  · -- some seat lacks a valid reservation: the whole call fails
    intro hsome
    obtain ⟨x0, hx0, hnone⟩ := hsome
    have hz : s.reservations.countP
        (fun r => r.seatId == x0 && validHold now u sc L r) = 0 := by
      rw [List.countP_eq_zero]
      intro r hr hp
      have h1 := (Bool.and_eq_true _ _).mp hp
      exact hnone r hr ⟨h1.2, by simpa using h1.1⟩
    have hlt : (s.reservations.filter (validHold now u sc L)).length ≠
        L.length := by
      intro hcontra
      have hones := all_one_of_sum_eq_length
        (l := L.map (fun x => s.reservations.countP
          (fun r => r.seatId == x && validHold now u sc L r)))
        (by
          intro v hv
          rcases List.mem_map.mp hv with ⟨x, hx, rfl⟩
          exact hle x hx)
        (by
          rw [← hpart, List.length_map, List.countP_eq_length_filter]
          rw [hcontra])
      have := hones _ (List.mem_map_of_mem _ hx0)
      rw [hz] at this
      exact absurd this (by simp)
    have herr := @extendReservationE_count_error now u sc k L s hlock hlt
    have hcount : L.length -
        (s.reservations.filter (validHold now u sc L)).length =
        (L.filter (fun x => (s.reservations.filter
          (fun r => validHold now u sc L r && r.seatId == x)).isEmpty)).length := by
      have hzsum : (L.filter (fun x => s.reservations.countP
            (fun r => r.seatId == x && validHold now u sc L r) == 0)).length +
          (L.map (fun x => s.reservations.countP
            (fun r => r.seatId == x && validHold now u sc L r))).sum =
          L.length :=
        length_filter_zero_add_sum _ L hle
      have hfcong : L.filter (fun x => (s.reservations.countP
          (fun r => r.seatId == x && validHold now u sc L r)) == 0) =
          L.filter (fun x => (s.reservations.filter
            (fun r => validHold now u sc L r && r.seatId == x)).isEmpty) := by
        apply List.filter_congr
        intro x _
        rw [hc x, List.countP_eq_length_filter]
        cases hfe : (s.reservations.filter
            (fun r => validHold now u sc L r && r.seatId == x))
        · simp
        · simp
      have he1 : (s.reservations.filter (validHold now u sc L)).length =
          (L.map (fun x => s.reservations.countP
            (fun r => r.seatId == x && validHold now u sc L r))).sum :=
        (List.countP_eq_length_filter _ _).symm.trans hpart
      rw [← hfcong, he1]
      omega
    constructor
    · apply extendReservation_error_fst
      unfold extendReservation
      rw [herr]
    · unfold extendReservation
      rw [herr]
      simp only
      rw [hcount]

/-- Witness for C7 (success branch) at `holdsStore`. -/
theorem C7_all_or_nothing_extension_witness :
    ((∀ x ∈ [1, 2], ∃ r ∈ holdsStore.reservations,
        validHold 10 7 1 [1, 2] r = true ∧ r.seatId = x) →
      extendReservation 10 7 1 [1, 2] 5 holdsStore =
        ({ holdsStore with reservations :=
            holdsStore.reservations.map (extendRow 10 7 1 [1, 2] 5) },
         .ok ((holdsStore.reservations.filter
           (validHold 10 7 1 [1, 2])).map (extendRow 10 7 1 [1, 2] 5))) ∧
      (∀ r ∈ holdsStore.reservations, validHold 10 7 1 [1, 2] r = true →
        { r with expiresAt := r.expiresAt + 5 } ∈
          (extendReservation 10 7 1 [1, 2] 5 holdsStore).1.reservations) ∧
      (∀ r ∈ holdsStore.reservations, validHold 10 7 1 [1, 2] r = false →
        r ∈ (extendReservation 10 7 1 [1, 2] 5 holdsStore).1.reservations)) ∧
    ((∃ x ∈ [1, 2], ∀ r ∈ holdsStore.reservations,
        ¬(validHold 10 7 1 [1, 2] r = true ∧ r.seatId = x)) →
      (extendReservation 10 7 1 [1, 2] 5 holdsStore).1 = holdsStore ∧
      (extendReservation 10 7 1 [1, 2] 5 holdsStore).2 =
        .error (.cannotExtend
          (([1, 2].filter (fun x => (holdsStore.reservations.filter
            (fun r => validHold 10 7 1 [1, 2] r &&
              r.seatId == x)).isEmpty)).length))) :=
  C7_all_or_nothing_extension (by decide) (by decide)
    (by decide) (by decide)

/-- C5: a user who already holds an active, unexpired reservation on a
seat may reserve it again: the call succeeds, the old row is flipped to
`cancelled`, and one fresh row (new id, status `active`, expiry refreshed
to now + 5 minutes) is created, leaving exactly one live hold on the
slot. -/
theorem C5_same_user_supersede {now u sc X : Nat} {s : Store}
    {scr : Screening} {st : Seat} {R : Reservation}
    (hfind : s.screenings.find? (fun x => x.id == sc) = some scr)
    (hmovie : (s.movies.find? (fun m => m.id == scr.movieId)).any
      (fun m => m.state == "coming_soon") = false)
    (hpast : ¬ scr.screeningTime < now)
    (hseat : s.seats.find? (fun st0 => st0.id == X) = some st)
    (hroom : st.roomId = scr.roomId)
    (hlock : (lockedSeats s.seats [X]).length = 1)
    (hnotk : s.tickets.filter (bookedConflict sc [X]) = [])
    (hnoother : ∀ r ∈ s.reservations, otherHold now u sc [X] r = false)
    (hR : R ∈ s.reservations) (hRsc : R.screeningId = sc)
    (hRx : R.seatId = X) (hRu : R.userId = u) (hRact : R.status = "active")
    (hRun : now < R.expiresAt)
    (hfresh : ∀ r ∈ s.reservations, r.id < s.nextResId) :
    ∃ s1, reserveSeatsE now u sc [X] s =
        .ok (s1, [⟨s.nextResId, sc, X, u, now,
          now + RESERVATION_DURATION_MINUTES, "active"⟩]) ∧
      { R with status := "cancelled" } ∈ s1.reservations ∧
      (∀ r ∈ s.reservations, r.id ≠ s.nextResId) ∧
      s1.reservations.filter (slotLive sc X now) =
        [⟨s.nextResId, sc, X, u, now,
          now + RESERVATION_DURATION_MINUTES, "active"⟩] := by
  have hval : validateSeats s.seats scr.roomId [X] = .ok () := by
    unfold validateSeats
    split
    · next hnone =>
      rw [hseat] at hnone
      cases hnone
    · next st1 hsome =>
      rw [hseat] at hsome
      obtain rfl := Option.some.inj hsome
      rw [if_neg (by simp [hroom])]
      rfl
  have hothersE : (expireStore now s).reservations.filter
      (otherHold now u sc [X]) = [] := by
    rw [List.filter_eq_nil_iff]
    intro rr hrr
    simp only [expireStore_reservations] at hrr
    rcases List.mem_map.mp hrr with ⟨r, hr, rfl⟩
    rw [otherHold_expireRow]
    rw [hnoother r hr]
    simp
  have hrun : reserveSeatsE now u sc [X] s =
      .ok ({ expireStore now s with
              reservations :=
                ((expireStore now s).reservations.map
                  (supersedeRow u sc [X])) ++
                  mkReservations now u sc [X] s.nextResId,
              nextResId := s.nextResId + 1 },
           mkReservations now u sc [X] s.nextResId) := by
    unfold reserveSeatsE
    simp only [expireStore_screenings, expireStore_movies,
      expireStore_seats, expireStore_tickets]
    split
    · next hnone =>
      rw [hfind] at hnone
      cases hnone
    · next scr2 hsome =>
      rw [hfind] at hsome
      obtain rfl := Option.some.inj hsome
      rw [if_neg (by rw [hmovie]; simp)]
      rw [if_neg hpast]
      split
      · next e hvE =>
        rw [hval] at hvE
        cases hvE
      · next hvOk =>
        have hlock2 : (lockedSeats s.seats [X]).length = [X].length := hlock
        rw [if_pos hlock2, if_pos hnotk, if_pos hothersE]
        rfl
  have hnew : mkReservations now u sc [X] s.nextResId =
      [⟨s.nextResId, sc, X, u, now,
        now + RESERVATION_DURATION_MINUTES, "active"⟩] := rfl
  have hRnotexp : expireRow now R = R := by
    unfold expireRow
    rw [if_neg]
    unfold isExpiredActive
    simp only [Bool.and_eq_true]
    intro hcc
    have := of_decide_eq_true hcc.2
    omega
  have hRown : ownActive u sc [X] R = true := by
    unfold ownActive
    simp [hRsc, hRx, hRu, hRact]
  have hRsup : supersedeRow u sc [X] R = { R with status := "cancelled" } := by
    unfold supersedeRow
    rw [if_pos hRown]
  refine ⟨_, by rw [hrun, hnew], ?_, ?_, ?_⟩
  · -- the old row is cancelled
    simp only
    apply List.mem_append.mpr
    left
    rw [← hRsup]
    apply List.mem_map_of_mem
    simp only [expireStore_reservations]
    rw [← hRnotexp]
    exact List.mem_map_of_mem _ hR
  · intro r hr
    have := hfresh r hr
    omega
  · -- exactly the fresh row is live on the slot
    simp only
    rw [List.filter_append]
    have hmap0 : ((expireStore now s).reservations.map
        (supersedeRow u sc [X])).filter (slotLive sc X now) = [] := by
      rw [List.filter_eq_nil_iff]
      intro rr hrr hlive
      obtain ⟨hmem, hown, hexp⟩ := mapped_live_orig hrr hlive
      obtain ⟨hsc0, hx0, hact0, hexp0⟩ := slotLive_elim hlive
      by_cases hu : rr.userId = u
      · have : ownActive u sc [X] rr = true := by
          unfold ownActive
          simp [hsc0, hx0, hu, hact0]
        rw [this] at hown
        exact absurd hown (by simp)
      · have : otherHold now u sc [X] rr = true := by
          unfold otherHold
          simp [hsc0, hx0, hact0, hexp0, hu]
        rw [hnoother rr hmem] at this
        exact absurd this (by simp)
    rw [hmap0, List.nil_append]
    have : slotLive sc X now
        ⟨s.nextResId, sc, X, u, now,
          now + RESERVATION_DURATION_MINUTES, "active"⟩ = true := by
      unfold slotLive
      simp
      unfold RESERVATION_DURATION_MINUTES
      omega
    rw [List.filter_cons_of_pos this]
    rfl

/-- Witness for C5: user 7 re-reserves seat 1 they already hold. -/
theorem C5_same_user_supersede_witness :
    ∃ s1, reserveSeatsE 10 7 1 [1] holdsStore =
        .ok (s1, [⟨2, 1, 1, 7, 10, 15, "active"⟩]) ∧
      { (⟨0, 1, 1, 7, 0, 50, "active"⟩ : Reservation) with
          status := "cancelled" } ∈ s1.reservations ∧
      (∀ r ∈ holdsStore.reservations, r.id ≠ 2) ∧
      s1.reservations.filter (slotLive 1 1 10) =
        [⟨2, 1, 1, 7, 10, 15, "active"⟩] :=
  C5_same_user_supersede rfl rfl (by decide) rfl rfl rfl rfl
    (by decide) (by decide) rfl rfl rfl rfl (by decide) (by decide)

/-- The grouping step records the new notification under its screening. -/
theorem pushUpdate_contains_self (acc : List (Nat × List SeatUpdate))
    (r : Reservation) :
    updContains (pushUpdate acc r) r.screeningId
      ⟨r.seatId, "available", r.userId⟩ := by
  unfold pushUpdate
  by_cases hc : acc.any (fun p => p.1 == r.screeningId) = true
  · rw [if_pos hc]
    rcases List.any_eq_true.mp hc with ⟨p, hp, hpk⟩
    have hpk' : p.1 = r.screeningId := by simpa using hpk
    refine ⟨p.2 ++ [⟨r.seatId, "available", r.userId⟩], ?_, by simp⟩
    have : (if p.1 == r.screeningId then
        (p.1, p.2 ++ [(⟨r.seatId, "available", r.userId⟩ : SeatUpdate)])
        else p) =
        (r.screeningId, p.2 ++ [⟨r.seatId, "available", r.userId⟩]) := by
      rw [if_pos hpk]
      rw [hpk']
    rw [← this]
    exact List.mem_map_of_mem _ hp
  · rw [if_neg hc]
    exact ⟨[⟨r.seatId, "available", r.userId⟩], by simp, by simp⟩

/-- The grouping step never drops recorded notifications. -/
theorem pushUpdate_mono {acc : List (Nat × List SeatUpdate)}
    {scid : Nat} {upd : SeatUpdate} (r : Reservation)
    (h : updContains acc scid upd) :
    updContains (pushUpdate acc r) scid upd := by
  obtain ⟨us, hmem, hupd⟩ := h
  unfold pushUpdate
  by_cases hc : acc.any (fun p => p.1 == r.screeningId) = true
  · rw [if_pos hc]
    by_cases hk : (scid == r.screeningId) = true
    · refine ⟨us ++ [⟨r.seatId, "available", r.userId⟩], ?_, by simp [hupd]⟩
      have : (if (scid, us).1 == r.screeningId then
          ((scid, us).1, (scid, us).2 ++
            [(⟨r.seatId, "available", r.userId⟩ : SeatUpdate)])
          else (scid, us)) =
          (scid, us ++ [⟨r.seatId, "available", r.userId⟩]) := by
        rw [if_pos hk]
      rw [← this]
      exact List.mem_map_of_mem _ hmem
    · refine ⟨us, ?_, hupd⟩
      have : (if (scid, us).1 == r.screeningId then
          ((scid, us).1, (scid, us).2 ++
            [(⟨r.seatId, "available", r.userId⟩ : SeatUpdate)])
          else (scid, us)) = (scid, us) := by
        rw [if_neg (by simpa using hk)]
      rw [← this]
      exact List.mem_map_of_mem _ hmem
  · rw [if_neg hc]
    exact ⟨us, List.mem_append.mpr (Or.inl hmem), hupd⟩

/-- Everything the grouping records comes from a swept row. -/
theorem pushUpdate_sound {acc : List (Nat × List SeatUpdate)}
    {scid : Nat} {upd : SeatUpdate} {r : Reservation}
    (h : updContains (pushUpdate acc r) scid upd) :
    updContains acc scid upd ∨
      (scid = r.screeningId ∧ upd = ⟨r.seatId, "available", r.userId⟩) := by
  obtain ⟨us, hmem, hupd⟩ := h
  unfold pushUpdate at hmem
  by_cases hc : acc.any (fun p => p.1 == r.screeningId) = true
  · rw [if_pos hc] at hmem
    rcases List.mem_map.mp hmem with ⟨p, hp, hfp⟩
    by_cases hk : (p.1 == r.screeningId) = true
    · rw [if_pos hk] at hfp
      have h1 : p.1 = scid := congrArg Prod.fst hfp
      have h2 : p.2 ++ [(⟨r.seatId, "available", r.userId⟩ : SeatUpdate)] =
          us := congrArg Prod.snd hfp
      rw [← h2] at hupd
      rcases List.mem_append.mp hupd with hin | hin
      · left
        exact ⟨p.2, by rw [← h1]; exact (Prod.mk.eta ▸ hp), hin⟩
      · right
        refine ⟨?_, by simpa using hin⟩
        rw [← h1]
        simpa using hk
    · rw [if_neg hk] at hfp
      left
      exact ⟨us, hfp ▸ hp, hupd⟩
  · rw [if_neg hc] at hmem
    rcases List.mem_append.mp hmem with hin | hin
    · left
      exact ⟨us, hin, hupd⟩
    · right
      have : (scid, us) = (r.screeningId,
          [(⟨r.seatId, "available", r.userId⟩ : SeatUpdate)]) := by
        simpa using hin
      have h1 := congrArg Prod.fst this
      have h2 := congrArg Prod.snd this
      simp only at h1 h2
      rw [h2] at hupd
      exact ⟨h1, by simpa using hupd⟩

/-- Folding the grouping step preserves recorded notifications. -/
theorem foldl_pushUpdate_mono {scid : Nat} {upd : SeatUpdate} :
    ∀ (rs : List Reservation) (acc : List (Nat × List SeatUpdate)),
      updContains acc scid upd →
      updContains (rs.foldl pushUpdate acc) scid upd := by
  intro rs
  induction rs with
  | nil => intro acc h; exact h
  | cons r rest ih =>
    intro acc h
    exact ih (pushUpdate acc r) (pushUpdate_mono r h)

/-- Every swept row ends up recorded under its screening. -/
theorem foldl_pushUpdate_complete :
    ∀ (rs : List Reservation) (acc : List (Nat × List SeatUpdate)),
      ∀ r ∈ rs, updContains (rs.foldl pushUpdate acc) r.screeningId
        ⟨r.seatId, "available", r.userId⟩ := by
  intro rs
  induction rs with
  | nil => intro acc r h; cases h
  | cons r0 rest ih =>
    intro acc r h
    rcases List.mem_cons.mp h with rfl | h'
    · exact foldl_pushUpdate_mono rest (pushUpdate acc r)
        (pushUpdate_contains_self acc r)
    · exact ih (pushUpdate acc r0) r h'

/-- Everything recorded comes from the base map or a swept row. -/
theorem foldl_pushUpdate_sound {scid : Nat} {upd : SeatUpdate} :
    ∀ (rs : List Reservation) (acc : List (Nat × List SeatUpdate)),
      updContains (rs.foldl pushUpdate acc) scid upd →
      updContains acc scid upd ∨
        ∃ r ∈ rs, scid = r.screeningId ∧
          upd = ⟨r.seatId, "available", r.userId⟩ := by
  intro rs
  induction rs with
  | nil => intro acc h; exact Or.inl h
  | cons r0 rest ih =>
    intro acc h
    rcases ih (pushUpdate acc r0) h with h' | ⟨r, hr, h1, h2⟩
    · rcases pushUpdate_sound h' with h'' | ⟨h1, h2⟩
      · exact Or.inl h''
      · exact Or.inr ⟨r0, List.mem_cons_self r0 rest, h1, h2⟩
    · exact Or.inr ⟨r, List.mem_cons_of_mem r0 hr, h1, h2⟩

/-- C8 (amended): a single cleanup sweep at instant `now` transitions
every reservation with status `active` and `expires_at` strictly before
`now` to `expired`, touches no other reservation and no ticket, and
returns the count of transitioned rows together with a map from
screening id to availability notifications with status `available`
carrying the previous holder.  (The claim's boundary case
`expires_at = now` is refuted separately: the source filters
`expires_at < current_time`, strictly.) -/
theorem C8_cleanup_postcondition (now : Nat) (s : Store) :
    (∀ r ∈ s.reservations,
      (r.status = "active" ∧ r.expiresAt < now →
        { r with status := "expired" } ∈
          (cleanupExpired now s).1.reservations) ∧
      (¬(r.status = "active" ∧ r.expiresAt < now) →
        r ∈ (cleanupExpired now s).1.reservations)) ∧
    (cleanupExpired now s).1.tickets = s.tickets ∧
    (cleanupExpired now s).2.1 =
      (s.reservations.filter (isExpiredActive now)).length ∧
    (∀ r ∈ s.reservations, r.status = "active" → r.expiresAt < now →
      updContains (cleanupExpired now s).2.2 r.screeningId
        ⟨r.seatId, "available", r.userId⟩) ∧
    (∀ scid upd, updContains (cleanupExpired now s).2.2 scid upd →
      upd.status = "available" ∧
      ∃ r ∈ s.reservations, r.status = "active" ∧ r.expiresAt < now ∧
        r.screeningId = scid ∧ upd.seatId = r.seatId ∧
        upd.previouslyReservedBy = r.userId) := by
  refine ⟨?_, rfl, rfl, ?_, ?_⟩
  · intro r hr
    constructor
    · intro ⟨h1, h2⟩
      have hie : isExpiredActive now r = true := by
        unfold isExpiredActive
        simp [h1, h2]
      have : expireRow now r = { r with status := "expired" } := by
        unfold expireRow
        rw [if_pos hie]
      show { r with status := "expired" } ∈
        s.reservations.map (expireRow now)
      rw [← this]
      exact List.mem_map_of_mem _ hr
    · intro hn
      have hie : isExpiredActive now r = false := by
        unfold isExpiredActive
        cases hst : (r.status == "active")
        · simp
        · have h1 : r.status = "active" := by simpa using hst
          have h2 : ¬ r.expiresAt < now := fun hc => hn ⟨h1, hc⟩
          simp [h2]
      have : expireRow now r = r := by
        unfold expireRow
        rw [hie]
        simp
      show r ∈ s.reservations.map (expireRow now)
      rw [← this]
      exact List.mem_map_of_mem _ hr
  · intro r hr h1 h2
    have hie : isExpiredActive now r = true := by
      unfold isExpiredActive
      simp [h1, h2]
    exact foldl_pushUpdate_complete _ []  r
      (List.mem_filter.mpr ⟨hr, hie⟩)
  · intro scid upd h
    rcases foldl_pushUpdate_sound _ [] h with h' | ⟨r, hr, h1, h2⟩
    · obtain ⟨us, hmem, -⟩ := h'
      cases hmem
    · have hrr := List.mem_filter.mp hr
      have hie := hrr.2
      unfold isExpiredActive at hie
      have hact : r.status = "active" := by
        have := (Bool.and_eq_true _ _).mp hie
        simpa using this.1
      have hexp : r.expiresAt < now := by
        have := (Bool.and_eq_true _ _).mp hie
        simpa using this.2
      rw [h2]
      exact ⟨rfl, r, hrr.1, hact, hexp, h1.symm, rfl, rfl⟩

/-- Witness for C8 at the boundary store, swept at instant 6. -/
theorem C8_cleanup_postcondition_witness :
    (∀ r ∈ boundaryStore.reservations,
      (r.status = "active" ∧ r.expiresAt < 6 →
        { r with status := "expired" } ∈
          (cleanupExpired 6 boundaryStore).1.reservations) ∧
      (¬(r.status = "active" ∧ r.expiresAt < 6) →
        r ∈ (cleanupExpired 6 boundaryStore).1.reservations)) ∧
    (cleanupExpired 6 boundaryStore).1.tickets = boundaryStore.tickets ∧
    (cleanupExpired 6 boundaryStore).2.1 =
      (boundaryStore.reservations.filter (isExpiredActive 6)).length ∧
    (∀ r ∈ boundaryStore.reservations, r.status = "active" →
      r.expiresAt < 6 →
      updContains (cleanupExpired 6 boundaryStore).2.2 r.screeningId
        ⟨r.seatId, "available", r.userId⟩) ∧
    (∀ scid upd, updContains (cleanupExpired 6 boundaryStore).2.2 scid upd →
      upd.status = "available" ∧
      ∃ r ∈ boundaryStore.reservations, r.status = "active" ∧
        r.expiresAt < 6 ∧ r.screeningId = scid ∧ upd.seatId = r.seatId ∧
        upd.previouslyReservedBy = r.userId) :=
  C8_cleanup_postcondition 6 boundaryStore

end Cinema
